import Mathlib

/-!
# Verification of the stable-ui generator store

Shallow embedding of `src/stores/generator.ts` (the Pinia generator store of the
stable-ui web client).  The store orchestrates an asynchronous job protocol
against an external image-generation HTTP API: it submits a job, polls its
status on a fixed cadence, supports cancellation via a flag, and materializes
the finished generations into a gallery (the output store).

Modelling conventions:
* The single cooperative execution context of the browser is modelled by
  explicit state passing over `St`.
* The network is an environment `Env`: `Env.net n` is the response to the n-th
  HTTP request issued by the client (requests are recorded in `St.requests` in
  order, so the n-th request reads `Env.net n`).
* Every `await` in the source is a yield point of the event loop.  External
  code may set the `cancelled` flag while the store is suspended there; the
  schedule `Env.cancelAt` says after which yield points that happens
  (`applyCancel`).  Nothing external ever clears the flag; the store itself
  clears it in `onInvalidResponse` and `generationDone`, as in the source.
* JavaScript values that may be `undefined`/`null` are `Option`s, and the
  truthiness tests of the source (`if (data.steps)`, `!json.message`, ...) are
  the `truthy*` helpers below (`0`, `""`, `null`/`undefined` are falsy).
* A JavaScript exception (the source has a reachable `TypeError`) is
  `Except.error` with a descriptive message.
* Numbers that the source only ever uses integrally are `Nat`; the two fields
  that are genuinely fractional in the API (`cfg_scale`, `performance`,
  `denoising_strength`) are `Rat`; the `eta` of a model record, which the
  source sets to `Infinity` for offline models, is the two-point type `EtaVal`.
-/

/-- An HTTP request issued by the client: method and full URL.
Request bodies and headers are not modelled; no claim concerns them. -/
structure Request where
  method : String
  url : String
deriving DecidableEq, Repr

/-- One generation record of the API (`GenerationStable`). -/
structure Generation where
  img : String
  seed : String
  model : String
  worker_id : String
  worker_name : String
deriving DecidableEq, Repr

/-- One entry of the live model list (`ActiveModel`) returned by
`GET /api/v2/status/models`. -/
structure ActiveModel where
  name : String
  count : Nat
  performance : Rat
  eta : Nat
  queued : Nat
deriving DecidableEq, Repr

/-- The JSON body of a response, as the subset of fields the store reads.
`none` in a field means the key is absent (`undefined`).  The check endpoint's
body carries `done`/`wait_time` directly (the body *is* the
`RequestStatusCheck`); the submit endpoint's body carries `id`; the status and
cancel endpoints carry `generations`; the model-list endpoint's body is an
array, represented by the `models` field (an array has no `message`/`errors`
properties, so those are `none` for it). -/
structure JsonVal where
  message : Option String := none
  errors : Option (List (String × String)) := none
  id : Option String := none
  done : Option Bool := none
  wait_time : Option Nat := none
  generations : Option (List Generation) := none
  models : Option (List ActiveModel) := none
deriving DecidableEq, Repr

/-- An HTTP response: status code plus parsed JSON body (`none` = null body). -/
structure NetResp where
  status : Nat
  json : Option JsonVal
deriving DecidableEq, Repr

/-- JavaScript truthiness of a possibly-absent string (`""` is falsy). -/
def truthyStr : Option String → Bool
  | none => false
  | some s => s ≠ ""

/-- JavaScript truthiness of a possibly-absent number (`0` is falsy). -/
def truthyNat : Option Nat → Bool
  | none => false
  | some n => n ≠ 0

/-- JavaScript truthiness of a possibly-absent rational (`0` is falsy). -/
def truthyRat : Option Rat → Bool
  | none => false
  | some q => q ≠ 0

/-- JavaScript truthiness of a possibly-absent boolean. -/
def truthyBool : Option Bool → Bool
  | none => false
  | some b => b

/-- The generation parameters held in the store (`ModelGenerationInputStable`).
`post_processing` is only attached when the parameters are cached for a
request (`paramsCached`); in the store itself it stays `[]`. -/
structure GenParams where
  steps : Nat
  n : Nat
  sampler_name : String
  width : Nat
  height : Nat
  cfg_scale : Rat
  seed_variation : Nat
  seed : String
  karras : Bool
  denoising_strength : Rat
  post_processing : List String := []
deriving DecidableEq, Repr

/-- `getDefaultStore()`: the default generation parameters. -/
def getDefaultStore : GenParams where
  steps := 30
  n := 1
  sampler_name := "k_euler"
  width := 512   -- make sure these are divisible by 64
  height := 512  -- make sure these are divisible by 64
  cfg_scale := 7
  seed_variation := 1000
  seed := ""
  karras := true
  denoising_strength := (3 : Rat) / 4

/-- The cached request parameters (`GenerationInput`). -/
structure GenerationInput where
  prompt : String
  params : GenParams
  nsfw : Bool
  censor_nsfw : Bool
  trusted_workers : Bool
  source_image : Option String
  source_mask : Option String
  source_processing : Option String
  workers : Option (List String)
  models : List String
deriving DecidableEq, Repr

/-- A gallery record (`ImageData` of the output store): id, base64 payload and
the echoed generation parameters.  All echoed fields are optional in the
TypeScript type. -/
structure ImageData where
  id : Nat
  image : String := ""
  prompt : Option String := none
  modelName : Option String := none
  workerID : Option String := none
  workerName : Option String := none
  seed : Option String := none
  steps : Option Nat := none
  sampler_name : Option String := none
  width : Option Nat := none
  height : Option Nat := none
  cfg_scale : Option Rat := none
  karras : Option Bool := none
  post_processing : Option (List String) := none
  starred : Bool := false
deriving DecidableEq, Repr

/-- A queued job (`ICurrentGeneration`): the cached input, the server-assigned
id, and the latest poll status (`waitData`, absent until first checked). -/
structure CurrentGeneration where
  input : GenerationInput
  id : String
  waitData : Option JsonVal := none
deriving DecidableEq, Repr

/-- A finished job record merged with the cached input
(`GenerationStable & GenerationInput`, the element type of
`generationDone`'s argument). -/
structure FinalImage where
  img : String
  seed : String
  model : String
  worker_id : String
  worker_name : String
  prompt : String
  params : Option GenParams
deriving DecidableEq, Repr

/-- `eta` of a merged model record: a number, or `Infinity` for a model that is
absent from the live list. -/
inductive EtaVal where
  | fin (n : Nat)
  | infinity
deriving DecidableEq, Repr

/-- A record of the static model database (the JSON document at
`MODELS_DB_URL`); the store destructures exactly these fields. -/
structure DbRecord where
  name : String
  description : String
  style : String
  nsfw : Bool
  type : String
deriving DecidableEq, Repr

/-- A merged model record (`IModelData`). -/
structure IModelData where
  name : String
  count : Nat
  performance : Rat
  description : String
  style : String
  nsfw : Bool
  type : String
  eta : EtaVal
  queued : Nat
deriving DecidableEq, Repr

/-- Modelled from the spec: the constant `MODELS_DB_URL` lives in
`@/constants`, which is not under `src/`; the spec only states that the static
model-metadata JSON document is fetched from a fixed URL, so the constant's
value is an arbitrary fixed string here. -/
def MODELS_DB_URL : String := "MODELS_DB_URL"

/-- The combined mutable state visible to the embedded store functions: the
generator store itself plus the small slices of the collaborating stores that
the code under `src/` reads or writes (options, ui, outputs), and the
instrumentation needed to observe the run (issued requests, sleeps, the event
clock, and a counter of `generationFailed` invocations). -/
structure St where
  -- generator store
  generatorType : String
  prompt : String
  negativePrompt : String
  params : GenParams
  nsfw : String
  trustedOnly : String
  postProcessors : List String
  availableModels : List (String × String)  -- (value, label)
  modelsJSON : List DbRecord
  modelsData : List IModelData
  selectedModel : String
  img2imgSource : String
  img2imgMask : String
  inpaintingSource : String
  inpaintingMask : String
  generating : Bool
  cancelled : Bool
  images : List ImageData
  queue : List CurrentGeneration
  -- options store (read-only to the modelled code)
  baseURL : String
  allowLargerParams : String
  useWorker : String
  -- ui store: modelled from the spec ("surfaces a single user-facing error
  -- message", "updating progress"): raised messages are logged, progress is a
  -- number.
  progress : Nat
  raisedErrors : List String
  raisedWarnings : List String
  progressLog : List (Nat × Nat)
  activeCollapse : List String
  activeIndex : String
  route : String
  -- outputs store: modelled from the spec ("appends them to an output
  -- collection"); `nextImageId` backs the fresh-identifier allocator.
  outputs : List ImageData
  nextImageId : Nat
  -- instrumentation
  requests : List Request
  sleepLog : List Nat
  clock : Nat
  failedCalls : Nat
deriving DecidableEq, Repr

/-- The environment of a run: the network's responses (indexed by the position
of the request in the trace), the schedule of external writes to the
`cancelled` flag (indexed by yield point), the body of the static model
database document, and the random index used for "Random!" model selection. -/
structure Env where
  net : Nat → NetResp
  cancelAt : Nat → Bool
  dbJSON : List DbRecord
  randomIndex : Nat

/-- One yield point of the event loop: external code may set the `cancelled`
flag here (it never clears it), and the clock advances. -/
def applyCancel (env : Env) (s : St) : St :=
  let s' := if env.cancelAt s.clock then { s with cancelled := true } else s
  { s' with clock := s'.clock + 1 }

/-- `await fetch(url, ...)` (plus `await response.json()`): record the request,
read the response from the environment, and pass a yield point. -/
def doFetch (env : Env) (method url : String) (s : St) : NetResp × St :=
  let resp := env.net s.requests.length
  let s := { s with requests := s.requests ++ [⟨method, url⟩] }
  (resp, applyCancel env s)

/-- `await sleep(ms)`: record the sleep and pass a yield point. -/
def doSleep (env : Env) (ms : Nat) (s : St) : St :=
  applyCancel env { s with sleepLog := s.sleepLog ++ [ms] }

/-- Modelled from the spec: `uiStore.raiseError` lives in `src/stores/ui.ts`,
which is not under `src/`; the spec says an invalid response "surfaces a single
user-facing error message", so raising an error appends the message to a log. -/
def raiseError (msg : String) (s : St) : St :=
  { s with raisedErrors := s.raisedErrors ++ [msg] }

/-- Modelled from the spec: `uiStore.raiseWarning` (ui store not under `src/`),
analogous to `raiseError`: the warning message is appended to a log. -/
def raiseWarning (msg : String) (s : St) : St :=
  { s with raisedWarnings := s.raisedWarnings ++ [msg] }

/-- `onInvalidResponse(msg)`: raise the message, reset progress, clear the
`cancelled` flag and the local images, and return `false`. -/
def onInvalidResponse (msg : String) (s : St) : Bool × St :=
  let s := raiseError msg s
  (false, { s with progress := 0, cancelled := false, images := [] })

/-- `Object.entries(json.errors).map(el => ...).join(" | ")`. -/
def formatErrors (errs : List (String × String)) : String :=
  String.intercalate " | " (errs.map fun el => el.1 ++ " - " ++ el.2)

/-- `validateResponse(response, json, goodStatus, msg)`.  Every call site
passes a single number as `goodStatus`, so the `Arrayable` type is modelled as
`Nat`.  When the body is null/undefined and the first guard falls through, the
source dereferences `json.message`, which throws a `TypeError` in JavaScript:
that is the `Except.error` branch. -/
def validateResponse (status : Nat) (json : Option JsonVal) (goodStatus : Nat)
    (msg : String) (s : St) : Except String (Bool × St) :=
  -- If JSON exists and the response status is good
  if status == goodStatus && json.isSome then .ok (true, s) else
  match json with
  | none => .error "TypeError: cannot read properties of null (reading message)"
  | some j =>
    -- If the bad JSON doesn't have a message parameter
    if !truthyStr j.message then
      .ok (onInvalidResponse (msg ++ ": Got response code " ++ toString status) s)
    -- If the bad JSON doesn't have an errors parameter
    else if j.errors.isNone then
      .ok (onInvalidResponse (msg ++ ": " ++ j.message.getD "") s)
    -- If the bad JSON has both the message and errors parameter
    else
      .ok (onInvalidResponse (msg ++ ": " ++ j.message.getD "" ++ " ("
        ++ formatErrors (j.errors.getD []) ++ ")") s)

/-- A closed, fully concrete store state used to evaluate the definitions on
concrete inputs. -/
def testState : St where
  generatorType := "Text2Img"
  prompt := "a cat"
  negativePrompt := ""
  params := getDefaultStore
  nsfw := "Enabled"
  trustedOnly := "All Workers"
  postProcessors := []
  availableModels := [("stable_diffusion", "stable_diffusion (2)")]
  modelsJSON := []
  modelsData := []
  selectedModel := "stable_diffusion"
  img2imgSource := ""
  img2imgMask := ""
  inpaintingSource := ""
  inpaintingMask := ""
  generating := false
  cancelled := false
  images := []
  queue := []
  baseURL := "B"
  allowLargerParams := "Disabled"
  useWorker := "None"
  progress := 0
  raisedErrors := []
  raisedWarnings := []
  progressLog := []
  activeCollapse := []
  activeIndex := ""
  route := ""
  outputs := []
  nextImageId := 0
  requests := []
  sleepLog := []
  clock := 0
  failedCalls := 0

/-- C1.  The claim says a missing (null/undefined) JSON body makes
`validateResponse` return `false` and raise exactly one user-facing error via
`onInvalidResponse`.  The code's own doc comment agrees ("Raises an error and
returns false if not"), but the code dereferences `json.message` on the error
path without a null check, so a null body with a non-matching status throws a
`TypeError` instead: evaluated here at status 404 against expected status 202.
For a present body the claim's behaviour does hold (see the helper lemmas used
for the other claims). -/
theorem c1_validateResponse_null_body_throws :
    validateResponse 404 none 202 "Failed to fetch ID" testState
      = .error "TypeError: cannot read properties of null (reading message)" := by
  rfl

/-- The result of an async store function that can throw, return `false`,
or return a payload.  `falsy` covers both the explicit `return false` of the
source and an `undefined` payload (both falsy at every call site). -/
inductive CallRes (α : Type) where
  | threw (e : String) (s : St)
  | falsy (s : St)
  | ok (a : α) (s : St)
deriving DecidableEq, Repr

/-- The URL of the job-submission endpoint. -/
def asyncURL (base : String) : String := base ++ "/api/v2/generate/async"

/-- The URL of the status-polling endpoint for a job id. -/
def checkURL (base imageID : String) : String :=
  base ++ "/api/v2/generate/check/" ++ imageID

/-- The URL of the final-status (GET) and cancellation (DELETE) endpoint for a
job id. -/
def statusURL (base imageID : String) : String :=
  base ++ "/api/v2/generate/status/" ++ imageID

/-- The URL of the model-list endpoint. -/
def modelsURL (base : String) : String := base ++ "/api/v2/status/models"

/-- `fetchNewID(parameters)`: POST the job to `/api/v2/generate/async` and
validate against status 202; returns the response JSON (a `RequestAsync`) or
`false`.  The request body (the serialized parameters) is not modelled. -/
def fetchNewID (env : Env) (s : St) : CallRes JsonVal :=
  let (response, s) := doFetch env "POST" (asyncURL s.baseURL) s
  match validateResponse response.status response.json 202 "Failed to fetch ID" s with
  | .error e => .threw e s
  | .ok (false, s) => .falsy s
  | .ok (true, s) =>
    match response.json with
    | some resJSON => .ok resJSON s
    | none => .threw "unreachable: validateResponse true implies a body" s

/-- The record `{ wait_time: 0, done: false }` that `checkImage` returns when
the `cancelled` flag is set. -/
def cancelDummy : JsonVal := { wait_time := some 0, done := some false }

/-- `checkImage(imageID)`: GET `/api/v2/generate/check/:id`; if the
`cancelled` flag is set at that point, return the fixed dummy record without
validating; otherwise validate against status 200 and return the body. -/
def checkImage (env : Env) (imageID : String) (s : St) : CallRes JsonVal :=
  let (response, s) := doFetch env "GET" (checkURL s.baseURL imageID) s
  if s.cancelled then .ok cancelDummy s else
  match validateResponse response.status response.json 200 "Failed to check image status" s with
  | .error e => .threw e s
  | .ok (false, s) => .falsy s
  | .ok (true, s) =>
    match response.json with
    | some resJSON => .ok resJSON s
    | none => .threw "unreachable: validateResponse true implies a body" s

/-- `cancelImage(imageID)`: DELETE `/api/v2/generate/status/:id`, validate
against status 200, and return `resJSON.generations` (which is `undefined`,
hence falsy, when the key is absent). -/
def cancelImage (env : Env) (imageID : String) (s : St) : CallRes (List Generation) :=
  let (response, s) := doFetch env "DELETE" (statusURL s.baseURL imageID) s
  match validateResponse response.status response.json 200 "Failed to cancel image" s with
  | .error e => .threw e s
  | .ok (false, s) => .falsy s
  | .ok (true, s) =>
    match response.json.bind (·.generations) with
    | some generations => .ok generations s
    | none => .falsy s

/-- `getImageStatus(imageID)`: GET `/api/v2/generate/status/:id`, validate
against status 200, and return `resJSON.generations`. -/
def getImageStatus (env : Env) (imageID : String) (s : St) : CallRes (List Generation) :=
  let (response, s) := doFetch env "GET" (statusURL s.baseURL imageID) s
  match validateResponse response.status response.json 200 "Failed to check image status" s with
  | .error e => .threw e s
  | .ok (false, s) => .falsy s
  | .ok (true, s) =>
    match response.json.bind (·.generations) with
    | some generations => .ok generations s
    | none => .falsy s

/-- `generationFailed()`: clear the `generating` flag, fire a `cancelImage`
for every job still in the queue, discard the queue and return `[]`.  The
`forEach(el => cancelImage(el.id))` launches the DELETE requests without
awaiting them — their responses are handled only after `generateImage` has
already returned — so only the emission of the requests is modelled.
`failedCalls` is instrumentation counting the invocations of this function. -/
def generationFailed (s : St) : List ImageData × St :=
  let s := { s with generating := false, failedCalls := s.failedCalls + 1 }
  let s := { s with requests := s.requests ++ s.queue.map (fun (el : CurrentGeneration) => Request.mk "DELETE" (statusURL s.baseURL el.id)) }
  ([], { s with queue := [] })

/-- The conversion of one finished job record into a gallery entry, performed
by `generationDone` for each element; `newId` is the value the output store's
`getNewImageID()` returned for this entry.  Dimensions are multiplied by 4
when the cached parameters include the `RealESRGAN_x4plus` upscaler. -/
def toImageData (newId : Nat) (image : FinalImage) : ImageData :=
  let post := (image.params.map (·.post_processing)).getD []
  let factor := if post.contains "RealESRGAN_x4plus" then 4 else 1
  { id := newId
    image := "data:image/webp;base64," ++ image.img
    prompt := some image.prompt
    modelName := some image.model
    workerID := some image.worker_id
    workerName := some image.worker_name
    seed := some image.seed
    steps := image.params.map (·.steps)
    sampler_name := image.params.map (·.sampler_name)
    width := image.params.map (fun p => p.width * factor)
    height := image.params.map (fun p => p.height * factor)
    cfg_scale := image.params.map (·.cfg_scale)
    karras := image.params.map (·.karras)
    post_processing := image.params.map (·.post_processing)
    starred := false }

/-- The per-record loop of `generationDone`: each record receives the next
fresh id from the output store's allocator. -/
def materialize (nextId : Nat) : List FinalImage → List ImageData
  | [] => []
  | f :: fs => toImageData nextId f :: materialize (nextId + 1) fs

/-- `generationDone(finalImages)`: clear the `generating` flag, reset the
progress and the `cancelled` flag, convert every finished record into a
gallery entry, set the local images, append the entries to the output store's
collection and return them.  The output store's `getNewImageID` and
`correctOutputIDs` live in `src/stores/outputs.ts`, which is not under `src/`;
modelled from the spec ("converts finished job records into gallery entries
and appends them to an output collection"): `getNewImageID` allocates fresh
consecutive identifiers and `correctOutputIDs` preserves the collection. -/
def generationDone (finalImages : List FinalImage) (s : St) : List ImageData × St :=
  let s := { s with generating := false, progress := 0, cancelled := false }
  let finalParams := materialize s.nextImageId finalImages
  let s := { s with nextImageId := s.nextImageId + finalImages.length,
                    images := finalParams,
                    outputs := s.outputs ++ finalParams }
  (finalParams, s)

/-- `maxSteps`: 500 when the "larger params" option is enabled, 50 otherwise. -/
def maxStepsOf (s : St) : Nat :=
  if s.allowLargerParams == "Enabled" then 500 else 50

/-- `maxDimensions`: 3072 when the "larger params" option is enabled, 1024
otherwise. -/
def maxDimensionsOf (s : St) : Nat :=
  if s.allowLargerParams == "Enabled" then 3072 else 1024

/-- The warning message `validateParam` raises for an out-of-range value. -/
def validateParamWarning (paramName : String) (param : Nat) : String :=
  "This image was generated using the 'Larger Values' option. Setting '"
    ++ paramName ++ "' to its default value instead of " ++ toString param ++ "."

/-- `validateParam(paramName, param, max, defaultValue)`: replace a value above
the cap by the default, raising a warning; accept it unchanged otherwise. -/
def validateParam (paramName : String) (param : Nat) (mx : Nat)
    (defaultValue : Nat) (s : St) : Nat × St :=
  if param > mx then
    (defaultValue, raiseWarning (validateParamWarning paramName param) s)
  else
    (param, s)

/-- The ui/navigation preamble of `generateText2Img`: switch the generator
type, open the collapse panes and navigate home. -/
def t2iHeader (s : St) : St :=
  { s with generatorType := "Text2Img", activeCollapse := ["2"],
           activeIndex := "/", route := "/" }

/-- `if (data.prompt) { ... }`: split the stored prompt on `" ### "` into the
positive and negative parts (`splitPrompt[1] || ""`). -/
def t2iPrompt (data : ImageData) (s : St) : St :=
  if truthyStr data.prompt then
    let splitPrompt := (data.prompt.getD "").splitOn " ### "
    { s with prompt := splitPrompt.headD "",
             negativePrompt := (splitPrompt.get? 1).getD "" }
  else s

/-- `if (data.sampler_name) params.value.sampler_name = data.sampler_name`. -/
def t2iSampler (data : ImageData) (s : St) : St :=
  if truthyStr data.sampler_name then
    { s with params.sampler_name := data.sampler_name.getD "" }
  else s

/-- `if (data.steps) params.value.steps = validateParam("steps", ..., maxSteps,
defaults.steps)`. -/
def t2iSteps (data : ImageData) (s : St) : St :=
  if truthyNat data.steps then
    let (v, s') := validateParam "steps" (data.steps.getD 0) (maxStepsOf s)
      getDefaultStore.steps s
    { s' with params.steps := v }
  else s

/-- `if (data.cfg_scale) params.value.cfg_scale = data.cfg_scale`. -/
def t2iCfg (data : ImageData) (s : St) : St :=
  if truthyRat data.cfg_scale then
    { s with params.cfg_scale := data.cfg_scale.getD 0 }
  else s

/-- `if (data.width) params.value.width = validateParam("width", ...,
maxDimensions, defaults.width)`. -/
def t2iWidth (data : ImageData) (s : St) : St :=
  if truthyNat data.width then
    let (v, s') := validateParam "width" (data.width.getD 0) (maxDimensionsOf s)
      getDefaultStore.width s
    { s' with params.width := v }
  else s

/-- `if (data.height) params.value.height = validateParam("height", ...,
maxDimensions, defaults.height)`. -/
def t2iHeight (data : ImageData) (s : St) : St :=
  if truthyNat data.height then
    let (v, s') := validateParam "height" (data.height.getD 0) (maxDimensionsOf s)
      getDefaultStore.height s
    { s' with params.height := v }
  else s

/-- `if (data.seed) params.value.seed = data.seed`. -/
def t2iSeed (data : ImageData) (s : St) : St :=
  if truthyStr data.seed then { s with params.seed := data.seed.getD "" } else s

/-- `if (data.karras) params.value.karras = data.karras`. -/
def t2iKarras (data : ImageData) (s : St) : St :=
  if truthyBool data.karras then
    { s with params.karras := data.karras.getD false }
  else s

/-- `if (data.post_processing) postProcessors.value = data.post_processing`
(a present empty array is truthy). -/
def t2iPost (data : ImageData) (s : St) : St :=
  if data.post_processing.isSome then
    { s with postProcessors := data.post_processing.getD [] }
  else s

/-- `if (data.modelName) selectedModel.value = data.modelName`. -/
def t2iModel (data : ImageData) (s : St) : St :=
  if truthyStr data.modelName then
    { s with selectedModel := data.modelName.getD "" }
  else s

/-- `generateText2Img(data)`: load a gallery record back into the generator:
the preamble, then each truthy field of the record is copied into the
parameter store in source order, with `steps`, `width` and `height` going
through `validateParam`. -/
def generateText2Img (data : ImageData) (s : St) : St :=
  t2iModel data (t2iPost data (t2iKarras data (t2iSeed data (t2iHeight data
    (t2iWidth data (t2iCfg data (t2iSteps data (t2iSampler data
      (t2iPrompt data (t2iHeader s))))))))))

/-- `el.waitData?.done` as a truthy test: the per-job boolean done flag. -/
def doneOf (waitData : Option JsonVal) : Bool :=
  truthyBool (waitData.bind (·.done))

/-- `queue.value.every(el => el.waitData?.done)`. -/
def allDone (queue : List CurrentGeneration) : Bool :=
  queue.all (fun el => doneOf el.waitData)

/-- `mergeObjects(data)`: the source sums every enumerable field of the
collected `waitData` records; of those, the model carries `wait_time` (summed)
and `done` (a boolean, which JavaScript coerces to 0/1 when summed).  The
result only feeds the ui store's progress display. -/
def mergeObjects (data : List (Option JsonVal)) : Nat × Nat :=
  data.foldl
    (fun prev curr =>
      (prev.1 + ((curr.bind (·.wait_time)).getD 0),
       prev.2 + (if truthyBool (curr.bind (·.done)) then 1 else 0)))
    (0, 0)

/-- Modelled from the spec: `uiStore.updateProgress` lives in
`src/stores/ui.ts`, which is not under `src/`; the spec says the poll loop
keeps "updating progress", so the update is logged as an event carrying the
merged status and the elapsed seconds. -/
def updateProgress (merged : Nat × Nat) (secondsElapsed : Nat) (s : St) : St :=
  { s with progressLog := s.progressLog ++ [(merged.1, secondsElapsed)] }

/-- Result of one pass of the inner `for` loop of the poll loop. -/
inductive BodyRes where
  | cont (s : St)
  | failRet (s : St)
  | threw (e : String) (s : St)
deriving DecidableEq, Repr

/-- The inner `for (const queuedImage of queue.value)` of the poll loop:
jobs whose done flag is already set are skipped; every other job's status is
fetched with `checkImage`, a falsy status aborts `generateImage` through
`generationFailed`, and a good status is stored into the job's `waitData`.
`pre` holds the already-processed prefix (the source mutates the entries in
place; here the queue field is rebuilt when the pass completes or fails). -/
def pollJobs (env : Env) (pre : List CurrentGeneration)
    (rest : List CurrentGeneration) (s : St) : BodyRes :=
  match rest with
  | [] => .cont { s with queue := pre }
  | queuedImage :: tail =>
    if doneOf queuedImage.waitData then
      pollJobs env (pre ++ [queuedImage]) tail s
    else
      match checkImage env queuedImage.id s with
      | .threw e s => .threw e s
      | .falsy s =>
        let s := { s with queue := pre ++ queuedImage :: tail }
        .failRet (generationFailed s).2
      | .ok status s =>
        pollJobs env (pre ++ [{ queuedImage with waitData := some status }]) tail s

/-- Result of the poll loop: a normal exit of the `while` (control reaches the
code after the loop), an abort of `generateImage` via `generationFailed`, a
thrown exception, or exhaustion of the modelling fuel (the source loop simply
keeps polling). -/
inductive LoopRes where
  | finished (s : St)
  | failRet (s : St)
  | threw (e : String) (s : St)
  | fuelOut (s : St)
deriving DecidableEq, Repr

/-- The poll loop
`while (!queue.value.every(el => el.waitData?.done) && !cancelled.value)`:
each iteration bumps `secondsElapsed`, re-checks every not-yet-done job,
merges the statuses into a progress update and sleeps 500 ms.  The loop
condition — and nothing inside an iteration — decides the exit. -/
def pollLoop (env : Env) (fuel : Nat) (secondsElapsed : Nat) (s : St) : LoopRes :=
  if allDone s.queue || s.cancelled then .finished s else
  match fuel with
  | 0 => .fuelOut s
  | fuel + 1 =>
    let secondsElapsed := secondsElapsed + 1
    match pollJobs env [] s.queue s with
    | .threw e s => .threw e s
    | .failRet s => .failRet s
    | .cont s =>
      let newStatus := mergeObjects (s.queue.map (·.waitData))
      let s := updateProgress newStatus secondsElapsed s
      let s := doSleep env 500 s
      pollLoop env fuel secondsElapsed s

/-- The loop over `queueCached` after the poll loop: a cancelled run DELETEs
each job (`cancelImage`), a completed run GETs its final status
(`getImageStatus`); a falsy result aborts through `generationFailed`, and the
returned generations are concatenated into `allImages`. -/
def finishJobs (env : Env) (queueCached : List CurrentGeneration)
    (allImages : List Generation) (s : St) : CallRes (List Generation) :=
  match queueCached with
  | [] => .ok allImages s
  | queuedImage :: tail =>
    let res := if s.cancelled then cancelImage env queuedImage.id s
               else getImageStatus env queuedImage.id s
    match res with
    | .threw e s => .threw e s
    | .falsy s => .falsy (generationFailed s).2
    | .ok finalImages s => finishJobs env tail (allImages ++ finalImages) s

/-- `getFullPrompt()`: combine the positive and negative prompt. -/
def getFullPrompt (s : St) : String :=
  if s.negativePrompt == "" then s.prompt
  else s.prompt ++ " ### " ++ s.negativePrompt

/-- The model selection of `generateImage`: the selected model, or — for
"Random!" — a random element of the non-"Random!" models, whose index the
environment chooses.  With an empty model list the source indexes past the end
and dereferences `undefined`, a `TypeError`. -/
def chooseModel (env : Env) (s : St) : Except String (List String) :=
  if s.selectedModel == "Random!" then
    let realModels := s.availableModels.filter (fun el => el.1 ≠ "Random!")
    match realModels.get? (env.randomIndex % realModels.length) with
    | some el => .ok [el.1]
    | none => .error "TypeError: cannot read properties of undefined (reading value)"
  else
    .ok [s.selectedModel]

/-- The generator type argument of `generateImage`. -/
inductive GenType where
  | text2img
  | img2img
  | inpainting
deriving DecidableEq, Repr

/-- `paramsCached`: the parameters frozen at submission time, so later store
mutations cannot affect the in-flight job. -/
def mkParamsCached (s : St) (sourceImage maskImage sourceProcessing : Option String)
    (model : List String) : GenerationInput :=
  { prompt := getFullPrompt s
    params := { s.params with
                  seed_variation := if s.params.seed == "" then 1000 else 1,
                  post_processing := s.postProcessors }
    nsfw := s.nsfw == "Enabled"
    censor_nsfw := s.nsfw == "Censored"
    trusted_workers := s.trustedOnly == "Trusted Only"
    source_image := sourceImage
    source_mask := maskImage
    source_processing := sourceProcessing
    workers := if s.useWorker == "None" then none else some [s.useWorker]
    models := model }

/-- The overall outcome of a `generateImage` run. -/
inductive RunResult where
  | ok (images : List ImageData) (s : St)
  | err (e : String) (s : St)
  | fuelOut (s : St)
deriving DecidableEq, Repr

/-- `allImages.map(el => ({...el, ...paramsCached}))`: merge a generation
record with the cached input (the key sets are disjoint, so the spread only
juxtaposes the fields). -/
def mergeWithInput (paramsCached : GenerationInput) (el : Generation) : FinalImage :=
  { img := el.img, seed := el.seed, model := el.model,
    worker_id := el.worker_id, worker_name := el.worker_name,
    prompt := paramsCached.prompt, params := some paramsCached.params }

/-- The tail of `generateImage` after the poll loop: cache and discard the
queue, collect each job's final generations (DELETE when cancelled, GET
otherwise), and materialize them — merged with `paramsCached` — through
`generationDone`. -/
def finishPhase (env : Env) (paramsCached : GenerationInput) (s : St) : RunResult :=
  match finishJobs env s.queue [] { s with queue := [] } with
  | .threw e s2 => .err e s2
  | .falsy s2 => .ok [] s2
  | .ok allImages s2 =>
    .ok (generationDone (allImages.map (mergeWithInput paramsCached)) s2).1
        (generationDone (allImages.map (mergeWithInput paramsCached)) s2).2

/-- The cached parameters assembled at the top of `generateImage`: the source
image, mask and processing mode chosen from the generator type, with the
selected models. -/
def paramsCachedOf (type : GenType) (model : List String) (s : St) : GenerationInput :=
  match type with
  | .img2img =>
    mkParamsCached s (some s.img2imgSource)
      (if s.img2imgMask ≠ "" then some s.img2imgMask else none) (some "img2img") model
  | .inpainting =>
    mkParamsCached s (some s.inpaintingSource) (some s.inpaintingMask)
      (some "inpainting") model
  | .text2img => mkParamsCached s none none none model

/-- The tail of `generateImage` from the poll loop on: poll until done or
cancelled (or a failure aborts), then collect and materialize. -/
def runPollAndFinish (env : Env) (fuel : Nat) (paramsCached : GenerationInput)
    (s : St) : RunResult :=
  match pollLoop env fuel 0 s with
  | .threw e s2 => .err e s2
  | .fuelOut s2 => .fuelOut s2
  | .failRet s2 => .ok [] s2
  | .finished s2 => finishPhase env paramsCached s2

/-- `generateImage(type)`: the full submission/poll/finish pipeline.  An empty
prompt returns `[]` before anything else; then the model is selected, the
parameters are cached, the `generating` flag is set, the job is submitted
(`fetchNewID`) and pushed onto the queue, and the run continues with
`runPollAndFinish`.  `fuel` bounds the number of poll iterations of the model;
`canvasStore.saveImages()` is an external canvas-library call with no effect
on the modelled state. -/
def generateImage (env : Env) (fuel : Nat) (type : GenType) (s : St) : RunResult :=
  -- if (prompt.value === "") return [];
  if s.prompt == "" then .ok [] s else
  match chooseModel env s with
  | .error e => .err e s
  | .ok model =>
    -- generating.value = true; then submit
    match fetchNewID env { s with generating := true } with
    | .threw e s1 => .err e s1
    | .falsy s1 => .ok (generationFailed s1).1 (generationFailed s1).2
    | .ok resJSON s1 =>
      -- images.value = []; queue.value.push({...paramsCached, id: resJSON.id})
      runPollAndFinish env fuel (paramsCachedOf type model s)
        { s1 with images := [],
                  queue := s1.queue ++
                    [{ input := paramsCachedOf type model s,
                       id := resJSON.id.getD "undefined", waitData := none }] }

/-- The final state of a run. -/
def stateOfRun : RunResult → St
  | .ok _ s => s
  | .err _ s => s
  | .fuelOut s => s

/-- The images a run returned (`[]` when it threw or ran out of fuel). -/
def imagesOfRun : RunResult → List ImageData
  | .ok images _ => images
  | .err _ _ => []
  | .fuelOut _ => []

/-- The request trace a run left behind. -/
def requestsOfRun (r : RunResult) : List Request :=
  (stateOfRun r).requests

/-- The merge of one static-database record with the live model list: the
source tests `resJSON.map(el => el.name).includes(name)` and reads the entry
at `indexOf(name)`, i.e. the first live entry of that name. -/
def mergeModel (live : List ActiveModel) (rec : DbRecord) : IModelData :=
  match live.find? (fun el => el.name == rec.name) with
  | some el =>
    { name := rec.name, description := rec.description, style := rec.style,
      nsfw := rec.nsfw, type := rec.type, queued := el.queued,
      eta := .fin el.eta, count := el.count, performance := el.performance }
  | none =>
    { name := rec.name, description := rec.description, style := rec.style,
      nsfw := rec.nsfw, type := rec.type, queued := 0, eta := .infinity,
      count := 0, performance := 0 }

/-- `resJSON.sort((a, b) => (b.count as number) - (a.count as number))`:
sort the live list by count, descending. -/
def sortByCountDesc (live : List ActiveModel) : List ActiveModel :=
  live.insertionSort (fun a b => b.count ≤ a.count)

/-- `updateAvailableModels()`: GET the live model list, validate it (an
invalid response returns early, leaving the lists untouched), sort it by
count descending, rebuild `availableModels` (with the trailing "Random!"
entry), GET the static database document and rebuild `modelsData` by merging
every database record with the live list.  The static document's body is
`Env.dbJSON` (the source uses it without validation).  A null live body throws
inside `validateResponse`, and a non-array body throws at `resJSON.sort`. -/
inductive UpdateRes where
  | done (s : St)
  | threw (e : String) (s : St)
deriving Repr

/-- The state an `updateAvailableModels` run ends in. -/
def stateOfUpdate : UpdateRes → St
  | .done s => s
  | .threw _ s => s

def updateAvailableModels (env : Env) (s : St) : UpdateRes :=
  match doFetch env "GET" (modelsURL s.baseURL) s with
  | (response, s1) =>
    match validateResponse response.status response.json 200
        "Failed to get available models" s1 with
    | .error e => .threw e s1
    | .ok (false, s2) => .done s2
    | .ok (true, s2) =>
      match response.json.bind (·.models) with
      | none => .threw "TypeError: resJSON.sort is not a function" s2
      | some resJSON =>
        let sorted := sortByCountDesc resJSON
        let entries := sorted.map
          (fun el => (el.name, el.name ++ " (" ++ toString el.count ++ ")"))
        let s3 := { s2 with availableModels := entries ++ [("Random!", "Random!")] }
        let s4 := (doFetch env "GET" MODELS_DB_URL s3).2
        let s5 := { s4 with modelsJSON := env.dbJSON }
        .done { s5 with modelsData := env.dbJSON.map (mergeModel sorted) }

/-- A yield point rewritten as a single record update: the `cancelled` flag
can only be raised, never cleared, and the clock advances. -/
theorem applyCancel_eq (env : Env) (s : St) :
    applyCancel env s
      = { s with cancelled := s.cancelled || env.cancelAt s.clock,
                 clock := s.clock + 1 } := by
  unfold applyCancel
  rcases h : env.cancelAt s.clock with _ | _ <;> simp [h]

/-- An environment with inert responses and no cancellation, for concrete
evaluations. -/
def constEnv : Env where
  net := fun _ => ⟨0, none⟩
  cancelAt := fun _ => false
  dbJSON := []
  randomIndex := 0

/-- C8.  With an empty prompt, `generateImage` returns `[]` immediately and
leaves the state — in particular the queue, the request trace and the
`generating` flag — completely untouched, for every generator type. -/
theorem c8_generateImage_empty_prompt (env : Env) (fuel : Nat) (type : GenType)
    (s : St) (h : s.prompt = "") :
    generateImage env fuel type s = .ok [] s := by
  simp [generateImage, h]

/-- Witness for C8 at a concrete state and environment. -/
theorem c8_witness :
    generateImage constEnv 0 GenType.text2img { testState with prompt := "" }
      = .ok [] { testState with prompt := "" } :=
  c8_generateImage_empty_prompt constEnv 0 GenType.text2img
    { testState with prompt := "" } rfl

/-- C9.  When the `cancelled` flag is set, `checkImage` returns the fixed
record `{ wait_time: 0, done: false }` whatever the server's response status
or body (the environment is universally quantified), raises no error, and the
record's done flag is falsy, so the job is not marked done. -/
theorem c9_checkImage_cancelled (env : Env) (imageID : String) (s : St)
    (h : s.cancelled = true) :
    match checkImage env imageID s with
    | .ok w s' =>
        w = cancelDummy ∧ w.wait_time = some 0 ∧ w.done = some false
          ∧ doneOf (some w) = false
          ∧ s'.raisedErrors = s.raisedErrors ∧ s'.cancelled = true
    | _ => False := by
  simp [checkImage, doFetch, applyCancel_eq, h, cancelDummy, doneOf, truthyBool]

/-- Witness for C9: a cancelled state against an arbitrary response. -/
theorem c9_witness :
    match checkImage constEnv "jobid" { testState with cancelled := true } with
    | .ok w s' =>
        w = cancelDummy ∧ w.wait_time = some 0 ∧ w.done = some false
          ∧ doneOf (some w) = false
          ∧ s'.raisedErrors = ({ testState with cancelled := true } : St).raisedErrors
          ∧ s'.cancelled = true
    | _ => False :=
  c9_checkImage_cancelled constEnv "jobid" { testState with cancelled := true } rfl

/-- The value `validateParam` leaves in the parameter store for an optional
incoming field: an absent or zero (falsy) value keeps the old one, a value
above the cap becomes the default, anything else is accepted unchanged. -/
def capResult (v : Option Nat) (cap dflt old : Nat) : Nat :=
  match v with
  | some n => if n ≠ 0 then (if n > cap then dflt else n) else old
  | none => old

/-- The warnings `validateParam` raises for an optional incoming field: one
warning when the value is truthy and above the cap, none otherwise. -/
def warnIf (paramName : String) (v : Option Nat) (cap : Nat) : List String :=
  match v with
  | some n => if n ≠ 0 ∧ n > cap then [validateParamWarning paramName n] else []
  | none => []

theorem maxStepsOf_congr {s t : St} (h : s.allowLargerParams = t.allowLargerParams) :
    maxStepsOf s = maxStepsOf t := by
  simp [maxStepsOf, h]

theorem maxDimensionsOf_congr {s t : St} (h : s.allowLargerParams = t.allowLargerParams) :
    maxDimensionsOf s = maxDimensionsOf t := by
  simp [maxDimensionsOf, h]

theorem t2iHeader_c4 (s : St) :
    (t2iHeader s).params = s.params
      ∧ (t2iHeader s).raisedWarnings = s.raisedWarnings
      ∧ (t2iHeader s).allowLargerParams = s.allowLargerParams := by
  simp [t2iHeader]

theorem t2iPrompt_c4 (data : ImageData) (s : St) :
    (t2iPrompt data s).params = s.params
      ∧ (t2iPrompt data s).raisedWarnings = s.raisedWarnings
      ∧ (t2iPrompt data s).allowLargerParams = s.allowLargerParams := by
  unfold t2iPrompt; split <;> simp

theorem t2iSampler_c4 (data : ImageData) (s : St) :
    (t2iSampler data s).params.steps = s.params.steps
      ∧ (t2iSampler data s).params.width = s.params.width
      ∧ (t2iSampler data s).params.height = s.params.height
      ∧ (t2iSampler data s).raisedWarnings = s.raisedWarnings
      ∧ (t2iSampler data s).allowLargerParams = s.allowLargerParams := by
  unfold t2iSampler; split <;> simp

theorem t2iCfg_c4 (data : ImageData) (s : St) :
    (t2iCfg data s).params.steps = s.params.steps
      ∧ (t2iCfg data s).params.width = s.params.width
      ∧ (t2iCfg data s).params.height = s.params.height
      ∧ (t2iCfg data s).raisedWarnings = s.raisedWarnings
      ∧ (t2iCfg data s).allowLargerParams = s.allowLargerParams := by
  unfold t2iCfg; split <;> simp

theorem t2iSeed_c4 (data : ImageData) (s : St) :
    (t2iSeed data s).params.steps = s.params.steps
      ∧ (t2iSeed data s).params.width = s.params.width
      ∧ (t2iSeed data s).params.height = s.params.height
      ∧ (t2iSeed data s).raisedWarnings = s.raisedWarnings
      ∧ (t2iSeed data s).allowLargerParams = s.allowLargerParams := by
  unfold t2iSeed; split <;> simp

theorem t2iKarras_c4 (data : ImageData) (s : St) :
    (t2iKarras data s).params.steps = s.params.steps
      ∧ (t2iKarras data s).params.width = s.params.width
      ∧ (t2iKarras data s).params.height = s.params.height
      ∧ (t2iKarras data s).raisedWarnings = s.raisedWarnings
      ∧ (t2iKarras data s).allowLargerParams = s.allowLargerParams := by
  unfold t2iKarras; split <;> simp

theorem t2iPost_c4 (data : ImageData) (s : St) :
    (t2iPost data s).params = s.params
      ∧ (t2iPost data s).raisedWarnings = s.raisedWarnings
      ∧ (t2iPost data s).allowLargerParams = s.allowLargerParams := by
  unfold t2iPost; split <;> simp

theorem t2iModel_c4 (data : ImageData) (s : St) :
    (t2iModel data s).params = s.params
      ∧ (t2iModel data s).raisedWarnings = s.raisedWarnings
      ∧ (t2iModel data s).allowLargerParams = s.allowLargerParams := by
  unfold t2iModel; split <;> simp

theorem t2iSteps_c4 (data : ImageData) (s : St) :
    (t2iSteps data s).params.steps
        = capResult data.steps (maxStepsOf s) getDefaultStore.steps s.params.steps
      ∧ (t2iSteps data s).params.width = s.params.width
      ∧ (t2iSteps data s).params.height = s.params.height
      ∧ (t2iSteps data s).raisedWarnings
          = s.raisedWarnings ++ warnIf "steps" data.steps (maxStepsOf s)
      ∧ (t2iSteps data s).allowLargerParams = s.allowLargerParams := by
  unfold t2iSteps validateParam raiseWarning capResult warnIf
  rcases h : data.steps with _ | st
  · simp [truthyNat]
  · by_cases h0 : st = 0
    · simp [truthyNat, h0]
    · by_cases hc : st > maxStepsOf s <;> simp [truthyNat, h0, hc]

theorem t2iWidth_c4 (data : ImageData) (s : St) :
    (t2iWidth data s).params.width
        = capResult data.width (maxDimensionsOf s) getDefaultStore.width s.params.width
      ∧ (t2iWidth data s).params.steps = s.params.steps
      ∧ (t2iWidth data s).params.height = s.params.height
      ∧ (t2iWidth data s).raisedWarnings
          = s.raisedWarnings ++ warnIf "width" data.width (maxDimensionsOf s)
      ∧ (t2iWidth data s).allowLargerParams = s.allowLargerParams := by
  unfold t2iWidth validateParam raiseWarning capResult warnIf
  rcases h : data.width with _ | w
  · simp [truthyNat]
  · by_cases h0 : w = 0
    · simp [truthyNat, h0]
    · by_cases hc : w > maxDimensionsOf s <;> simp [truthyNat, h0, hc]

theorem t2iHeight_c4 (data : ImageData) (s : St) :
    (t2iHeight data s).params.height
        = capResult data.height (maxDimensionsOf s) getDefaultStore.height s.params.height
      ∧ (t2iHeight data s).params.steps = s.params.steps
      ∧ (t2iHeight data s).params.width = s.params.width
      ∧ (t2iHeight data s).raisedWarnings
          = s.raisedWarnings ++ warnIf "height" data.height (maxDimensionsOf s)
      ∧ (t2iHeight data s).allowLargerParams = s.allowLargerParams := by
  unfold t2iHeight validateParam raiseWarning capResult warnIf
  rcases h : data.height with _ | v
  · simp [truthyNat]
  · by_cases h0 : v = 0
    · simp [truthyNat, h0]
    · by_cases hc : v > maxDimensionsOf s <;> simp [truthyNat, h0, hc]

/-- A value produced by the cap check is divisible by 64 whenever the old
value and any incoming value are: the replacement default 512 is itself
divisible by 64. -/
theorem capResult_div64 (v : Option Nat) (cap old : Nat) (hold : old % 64 = 0)
    (hv : ∀ w, v = some w → w % 64 = 0) : capResult v cap 512 old % 64 = 0 := by
  unfold capResult
  rcases v with _ | n
  · exact hold
  · by_cases h0 : n = 0
    · simp [h0, hold]
    · by_cases hc : n > cap <;> simp [h0, hc, hv n rfl, hold]

/-- C4 counterexample.  The claim says width/height values accepted into the
parameter store are divisible by 64, but `generateText2Img` performs no
divisibility check: a record with `width = 100` (below the 1024 cap, so not
replaced) puts 100 — which is not divisible by 64 — straight into the store. -/
theorem c4_counterexample :
    (generateText2Img { id := 0, width := some 100 } testState).params.width = 100
      ∧ (generateText2Img { id := 0, width := some 100 } testState).params.width % 64 ≠ 0 := by
  constructor <;> decide

/-- C4 (amended).  `generateText2Img` range-validates `steps`, `width` and
`height`: a truthy value above its cap (`maxSteps` = 50, or 500 with the
larger-params option; `maxDimensions` = 1024, or 3072) is replaced by the
default (30 steps, 512 dimension) and raises exactly one warning, a truthy
value within the cap is accepted unchanged, and a falsy one leaves the store
untouched (`capResult`/`warnIf` state this exhaustively).  No divisibility
check is performed: accepted width/height values are divisible by 64 only in
the sense that the check preserves divisibility — if the stored value and any
incoming value are divisible by 64, the accepted value is (the defaults are). -/
theorem c4_amended_generateText2Img (data : ImageData) (s : St) :
    (generateText2Img data s).params.steps
        = capResult data.steps (maxStepsOf s) 30 s.params.steps
      ∧ (generateText2Img data s).params.width
          = capResult data.width (maxDimensionsOf s) 512 s.params.width
      ∧ (generateText2Img data s).params.height
          = capResult data.height (maxDimensionsOf s) 512 s.params.height
      ∧ (generateText2Img data s).raisedWarnings
          = s.raisedWarnings ++ warnIf "steps" data.steps (maxStepsOf s)
              ++ warnIf "width" data.width (maxDimensionsOf s)
              ++ warnIf "height" data.height (maxDimensionsOf s)
      ∧ (s.params.width % 64 = 0 → (∀ w, data.width = some w → w % 64 = 0) →
          (generateText2Img data s).params.width % 64 = 0)
      ∧ (s.params.height % 64 = 0 → (∀ v, data.height = some v → v % 64 = 0) →
          (generateText2Img data s).params.height % 64 = 0) := by
  obtain ⟨hA1, hA2, hA3⟩ := t2iHeader_c4 s
  obtain ⟨hB1, hB2, hB3⟩ := t2iPrompt_c4 data (t2iHeader s)
  obtain ⟨hC1, hC2, hC3, hC4, hC5⟩ := t2iSampler_c4 data (t2iPrompt data (t2iHeader s))
  set s3 := t2iSampler data (t2iPrompt data (t2iHeader s)) with hs3
  obtain ⟨hD1, hD2, hD3, hD4, hD5⟩ := t2iSteps_c4 data s3
  set s4 := t2iSteps data s3 with hs4
  obtain ⟨hE1, hE2, hE3, hE4, hE5⟩ := t2iCfg_c4 data s4
  set s5 := t2iCfg data s4 with hs5
  obtain ⟨hF1, hF2, hF3, hF4, hF5⟩ := t2iWidth_c4 data s5
  set s6 := t2iWidth data s5 with hs6
  obtain ⟨hG1, hG2, hG3, hG4, hG5⟩ := t2iHeight_c4 data s6
  set s7 := t2iHeight data s6 with hs7
  obtain ⟨hH1, hH2, hH3, hH4, hH5⟩ := t2iSeed_c4 data s7
  set s8 := t2iSeed data s7 with hs8
  obtain ⟨hI1, hI2, hI3, hI4, hI5⟩ := t2iKarras_c4 data s8
  set s9 := t2iKarras data s8 with hs9
  obtain ⟨hJ1, hJ2, hJ3⟩ := t2iPost_c4 data s9
  set s10 := t2iPost data s9 with hs10
  obtain ⟨hK1, hK2, hK3⟩ := t2iModel_c4 data s10
  have hrun : generateText2Img data s = t2iModel data s10 := rfl
  -- caps propagated through the pipeline
  have hmaxS : maxStepsOf s3 = maxStepsOf s :=
    maxStepsOf_congr (by rw [hC5, hB3, hA3])
  have hmaxD5 : maxDimensionsOf s5 = maxDimensionsOf s :=
    maxDimensionsOf_congr (by rw [hE5, hD5, hC5, hB3, hA3])
  have hmaxD6 : maxDimensionsOf s6 = maxDimensionsOf s :=
    maxDimensionsOf_congr (by rw [hF5, hE5, hD5, hC5, hB3, hA3])
  -- the field values before each validation
  have hstepsPre : s3.params.steps = s.params.steps := by rw [hC1, hB1, hA1]
  have hwidthPre : s5.params.width = s.params.width := by
    rw [hE2, hD2, hC2, hB1, hA1]
  have hheightPre : s6.params.height = s.params.height := by
    rw [hG1.symm] at *
    rw [hF3, hE3, hD3, hC3, hB1, hA1]
  have hsteps : (generateText2Img data s).params.steps
      = capResult data.steps (maxStepsOf s) 30 s.params.steps := by
    rw [hrun, hK1, hJ1, hI1, hH1, hG2, hF2, hE1, hD1, hmaxS, hstepsPre]
    rfl
  have hwidth : (generateText2Img data s).params.width
      = capResult data.width (maxDimensionsOf s) 512 s.params.width := by
    rw [hrun, hK1, hJ1, hI2, hH2, hG3, hF1, hmaxD5, hwidthPre]
    rfl
  have hheight : (generateText2Img data s).params.height
      = capResult data.height (maxDimensionsOf s) 512 s.params.height := by
    rw [hrun, hK1, hJ1, hI3, hH3, hG1, hmaxD6, hheightPre]
    rfl
  refine ⟨hsteps, hwidth, hheight, ?_, ?_, ?_⟩
  · rw [hrun, hK2, hJ2, hI4, hH4, hG4, hF4, hE4, hD4, hC4, hB2, hA2,
        hmaxS, hmaxD5, hmaxD6]
  · intro hold hv
    rw [hwidth]
    exact capResult_div64 data.width (maxDimensionsOf s) s.params.width hold hv
  · intro hold hv
    rw [hheight]
    exact capResult_div64 data.height (maxDimensionsOf s) s.params.height hold hv

/-- Witness for C4 (amended): a record with steps above the 50 cap and a
width within the cap, loaded into the default store. -/
theorem c4_amended_witness :
    (generateText2Img { id := 0, steps := some 100, width := some 640 } testState).params.steps
        = capResult (some 100) (maxStepsOf testState) 30 testState.params.steps
      ∧ (generateText2Img { id := 0, steps := some 100, width := some 640 } testState).params.width % 64 = 0 := by
  obtain ⟨h1, h2, h3, h4, h5, h6⟩ :=
    c4_amended_generateText2Img { id := 0, steps := some 100, width := some 640 } testState
  refine ⟨h1, h5 (by decide) ?_⟩
  intro w hw
  cases hw
  decide

theorem materialize_length (n : Nat) (l : List FinalImage) :
    (materialize n l).length = l.length := by
  induction l generalizing n with
  | nil => rfl
  | cons f fs ih => simp [materialize, ih]

/-- The ids handed out by the materialization are the consecutive fresh ids
starting at the allocator's current value. -/
theorem materialize_ids (n : Nat) (l : List FinalImage) :
    (materialize n l).map (·.id) = List.range' n l.length := by
  induction l generalizing n with
  | nil => rfl
  | cons f fs ih => simp [materialize, List.range', ih, toImageData]

/-- Every pair of a source record and its materialized entry is related by
`toImageData` at some fresh id. -/
theorem materialize_zip (n : Nat) (l : List FinalImage) :
    ∀ p ∈ l.zip (materialize n l), ∃ m, p.2 = toImageData m p.1 := by
  induction l generalizing n with
  | nil => intro p hp; simp at hp
  | cons f fs ih =>
    intro p hp
    simp only [materialize, List.zip_cons_cons, List.mem_cons] at hp
    rcases hp with h | h
    · exact ⟨n, by rw [h]⟩
    · exact ih (n + 1) p h

/-- The field mapping of a single gallery entry. -/
theorem toImageData_echo (m : Nat) (f : FinalImage) :
    (toImageData m f).id = m
      ∧ (toImageData m f).image = "data:image/webp;base64," ++ f.img
      ∧ (toImageData m f).prompt = some f.prompt
      ∧ (toImageData m f).seed = some f.seed
      ∧ (toImageData m f).modelName = some f.model
      ∧ (toImageData m f).steps = f.params.map (·.steps)
      ∧ (toImageData m f).sampler_name = f.params.map (·.sampler_name)
      ∧ (toImageData m f).cfg_scale = f.params.map (·.cfg_scale)
      ∧ (∀ q, f.params = some q →
          (toImageData m f).width
              = some (q.width * (if q.post_processing.contains "RealESRGAN_x4plus" then 4 else 1))
            ∧ (toImageData m f).height
                = some (q.height * (if q.post_processing.contains "RealESRGAN_x4plus" then 4 else 1))) := by
  refine ⟨rfl, rfl, rfl, rfl, rfl, rfl, rfl, rfl, ?_⟩
  intro q hq
  constructor <;> simp [toImageData, hq]

/-- C7.  `generationDone` appends exactly the converted entries to the end of
the output store's collection (`outputs' = outputs ++ returned`), one entry
per finished record, each carrying a fresh consecutive id, the base64 image
payload, and the echoed prompt/seed/steps/sampler/cfg parameters; the
dimensions are echoed times 4 when the cached parameters include the
`RealESRGAN_x4plus` upscaler.  Previously stored entries are untouched and
keep their order (they form the unchanged prefix).  The output store itself
(`outputs.ts`) is not under `src/` and is modelled from the spec as an
append-only collection with a fresh-id allocator. -/
theorem c7_generationDone (finalImages : List FinalImage) (s : St) :
    (generationDone finalImages s).2.outputs
        = s.outputs ++ (generationDone finalImages s).1
      ∧ (generationDone finalImages s).1.length = finalImages.length
      ∧ (generationDone finalImages s).1.map (·.id)
          = List.range' s.nextImageId finalImages.length
      ∧ ∀ p ∈ finalImages.zip (generationDone finalImages s).1,
          p.2.image = "data:image/webp;base64," ++ p.1.img
            ∧ p.2.prompt = some p.1.prompt
            ∧ p.2.seed = some p.1.seed
            ∧ p.2.steps = p.1.params.map (·.steps)
            ∧ p.2.sampler_name = p.1.params.map (·.sampler_name)
            ∧ p.2.cfg_scale = p.1.params.map (·.cfg_scale)
            ∧ ∀ q, p.1.params = some q →
                p.2.width
                    = some (q.width * (if q.post_processing.contains "RealESRGAN_x4plus" then 4 else 1))
                  ∧ p.2.height
                      = some (q.height * (if q.post_processing.contains "RealESRGAN_x4plus" then 4 else 1)) := by
  have h1 : (generationDone finalImages s).1 = materialize s.nextImageId finalImages := rfl
  have h2 : (generationDone finalImages s).2.outputs
      = s.outputs ++ materialize s.nextImageId finalImages := rfl
  refine ⟨by rw [h2, h1], by rw [h1]; exact materialize_length _ _,
          by rw [h1]; exact materialize_ids _ _, ?_⟩
  intro p hp
  rw [h1] at hp
  obtain ⟨m, hm⟩ := materialize_zip s.nextImageId finalImages p hp
  obtain ⟨_, e2, e3, e4, _, e6, e7, e8, e9⟩ := toImageData_echo m p.1
  rw [hm]
  exact ⟨e2, e3, e4, e6, e7, e8, e9⟩

/-- A concrete finished record for evaluating C7. -/
def wFinal : FinalImage where
  img := "AAAA"
  seed := "1234"
  model := "stable_diffusion"
  worker_id := "w1"
  worker_name := "worker"
  prompt := "a cat"
  params := some getDefaultStore

/-- Witness for C7: one finished record materialized into the default store. -/
theorem c7_witness :
    (generationDone [wFinal] testState).2.outputs
        = testState.outputs ++ (generationDone [wFinal] testState).1
      ∧ (toImageData 0 wFinal).width
          = some (getDefaultStore.width
              * (if getDefaultStore.post_processing.contains "RealESRGAN_x4plus" then 4 else 1)) := by
  obtain ⟨h1, _, _, h4⟩ := c7_generationDone [wFinal] testState
  have hz : [wFinal].zip (generationDone [wFinal] testState).1
      = [(wFinal, toImageData 0 wFinal)] := rfl
  have hm : (wFinal, toImageData 0 wFinal)
      ∈ [wFinal].zip (generationDone [wFinal] testState).1 := by
    rw [hz]; exact List.mem_singleton_self _
  obtain ⟨_, _, _, _, _, _, hwq⟩ := h4 _ hm
  exact ⟨h1, (hwq getDefaultStore rfl).1⟩

/-- The state of a `CallRes`, whatever the outcome. -/
def stateOfCall {α : Type} : CallRes α → St
  | .threw _ s => s
  | .falsy s => s
  | .ok _ s => s

/-- The state right after `await fetch(m, u)`: the request is recorded and one
yield point has passed. -/
def fetched (env : Env) (m u : String) (s : St) : St :=
  { s with requests := s.requests ++ [⟨m, u⟩],
           cancelled := s.cancelled || env.cancelAt s.clock,
           clock := s.clock + 1 }

theorem doFetch_eq (env : Env) (m u : String) (s : St) :
    doFetch env m u s = (env.net s.requests.length, fetched env m u s) := by
  simp only [doFetch, applyCancel_eq, fetched]

theorem doSleep_eq (env : Env) (ms : Nat) (s : St) :
    doSleep env ms s
      = { s with sleepLog := s.sleepLog ++ [ms],
                 cancelled := s.cancelled || env.cancelAt s.clock,
                 clock := s.clock + 1 } := by
  simp only [doSleep, applyCancel_eq]

/-- The result state of `onInvalidResponse`, as a record update. -/
def invalidated (m : String) (s : St) : St :=
  { s with raisedErrors := s.raisedErrors ++ [m], progress := 0,
           cancelled := false, images := [] }

/-- `validateResponse` either accepts (state untouched), rejects through
`onInvalidResponse` (one error raised, progress/cancelled/images reset), or
throws on a null body. -/
theorem validateResponse_cases (status : Nat) (json : Option JsonVal) (g : Nat)
    (msg : String) (s : St) :
    validateResponse status json g msg s = .ok (true, s)
      ∨ (∃ m, validateResponse status json g msg s = .ok (false, invalidated m s))
      ∨ (json = none ∧ ∃ e, validateResponse status json g msg s = .error e) := by
  unfold validateResponse onInvalidResponse raiseError invalidated
  split
  · exact .inl rfl
  · rcases json with _ | j
    · exact .inr (.inr ⟨rfl, _, rfl⟩)
    · by_cases h1 : truthyStr j.message = true
      · by_cases h2 : j.errors.isNone = true
        · simp only [h1, h2, Bool.not_true, if_false, if_true]
          exact .inr (.inl ⟨_, rfl⟩)
        · simp only [h1, h2, Bool.not_true, if_false]
          exact .inr (.inl ⟨_, rfl⟩)
      · simp only [Bool.not_eq_true] at h1
        simp only [h1, Bool.not_false, if_true]
        exact .inr (.inl ⟨_, rfl⟩)

/-- A response with the expected status and a present body passes validation
without touching the state. -/
theorem validateResponse_good (status : Nat) (json : Option JsonVal) (g : Nat)
    (msg : String) (s : St) (h1 : status = g) (h2 : json.isSome = true) :
    validateResponse status json g msg s = .ok (true, s) := by
  unfold validateResponse
  rw [if_pos]
  simp [h1, h2]

/-- `cancelImage` always sends its DELETE first; afterwards it returns the
generations (valid response carrying them), `false`/`undefined` (invalid
response raising one error, or a valid response without a `generations` key),
or throws (null body). -/
theorem cancelImage_cases (env : Env) (imageID : String) (s : St) :
    (∃ gens, cancelImage env imageID s
        = .ok gens (fetched env "DELETE" (statusURL s.baseURL imageID) s))
      ∨ (∃ m, cancelImage env imageID s
          = .falsy (invalidated m (fetched env "DELETE" (statusURL s.baseURL imageID) s)))
      ∨ cancelImage env imageID s
          = .falsy (fetched env "DELETE" (statusURL s.baseURL imageID) s)
      ∨ (∃ e, cancelImage env imageID s
          = .threw e (fetched env "DELETE" (statusURL s.baseURL imageID) s)) := by
  simp only [cancelImage, doFetch_eq]
  rcases validateResponse_cases (env.net s.requests.length).status
      (env.net s.requests.length).json 200 "Failed to cancel image"
      (fetched env "DELETE" (statusURL s.baseURL imageID) s) with hv | ⟨m, hv⟩ | ⟨_, e, hv⟩
  · rw [hv]
    rcases hg : (env.net s.requests.length).json.bind (·.generations) with _ | gens
    · simp [hg]
    · simp [hg]
  · rw [hv]
    exact .inr (.inl ⟨m, rfl⟩)
  · rw [hv]
    exact .inr (.inr (.inr ⟨e, rfl⟩))

/-- `getImageStatus` analogue of `cancelImage_cases`, with the GET request. -/
theorem getImageStatus_cases (env : Env) (imageID : String) (s : St) :
    (∃ gens, getImageStatus env imageID s
        = .ok gens (fetched env "GET" (statusURL s.baseURL imageID) s))
      ∨ (∃ m, getImageStatus env imageID s
          = .falsy (invalidated m (fetched env "GET" (statusURL s.baseURL imageID) s)))
      ∨ getImageStatus env imageID s
          = .falsy (fetched env "GET" (statusURL s.baseURL imageID) s)
      ∨ (∃ e, getImageStatus env imageID s
          = .threw e (fetched env "GET" (statusURL s.baseURL imageID) s)) := by
  simp only [getImageStatus, doFetch_eq]
  rcases validateResponse_cases (env.net s.requests.length).status
      (env.net s.requests.length).json 200 "Failed to check image status"
      (fetched env "GET" (statusURL s.baseURL imageID) s) with hv | ⟨m, hv⟩ | ⟨_, e, hv⟩
  · rw [hv]
    rcases hg : (env.net s.requests.length).json.bind (·.generations) with _ | gens
    · simp [hg]
    · simp [hg]
  · rw [hv]
    exact .inr (.inl ⟨m, rfl⟩)
  · rw [hv]
    exact .inr (.inr (.inr ⟨e, rfl⟩))

/-- `checkImage` always sends its GET first; afterwards it returns a status
record (the cancel dummy or the response body), `false` (invalid response,
one error raised), or throws (null body). -/
theorem checkImage_cases (env : Env) (imageID : String) (s : St) :
    (∃ w, checkImage env imageID s
        = .ok w (fetched env "GET" (checkURL s.baseURL imageID) s))
      ∨ (∃ m, checkImage env imageID s
          = .falsy (invalidated m (fetched env "GET" (checkURL s.baseURL imageID) s)))
      ∨ (∃ e, checkImage env imageID s
          = .threw e (fetched env "GET" (checkURL s.baseURL imageID) s)) := by
  simp only [checkImage, doFetch_eq]
  by_cases hc : (fetched env "GET" (checkURL s.baseURL imageID) s).cancelled = true
  · simp only [hc, if_true]
    exact .inl ⟨cancelDummy, rfl⟩
  · simp only [hc, if_false]
    rcases validateResponse_cases (env.net s.requests.length).status
        (env.net s.requests.length).json 200 "Failed to check image status"
        (fetched env "GET" (checkURL s.baseURL imageID) s) with hv | ⟨m, hv⟩ | ⟨_, e, hv⟩
    · rw [hv]
      rcases hg : (env.net s.requests.length).json with _ | j
      · simp [hg]
      · simp [hg]
    · rw [hv]
      exact .inr (.inl ⟨m, rfl⟩)
    · rw [hv]
      exact .inr (.inr ⟨e, rfl⟩)

/-- `fetchNewID` always sends its POST first; afterwards it returns the
response JSON, `false` (invalid response, one error raised), or throws. -/
theorem fetchNewID_cases (env : Env) (s : St) :
    (∃ j, fetchNewID env s = .ok j (fetched env "POST" (asyncURL s.baseURL) s))
      ∨ (∃ m, fetchNewID env s
          = .falsy (invalidated m (fetched env "POST" (asyncURL s.baseURL) s)))
      ∨ (∃ e, fetchNewID env s
          = .threw e (fetched env "POST" (asyncURL s.baseURL) s)) := by
  simp only [fetchNewID, doFetch_eq]
  rcases validateResponse_cases (env.net s.requests.length).status
      (env.net s.requests.length).json 202 "Failed to fetch ID"
      (fetched env "POST" (asyncURL s.baseURL) s) with hv | ⟨m, hv⟩ | ⟨_, e, hv⟩
  · rw [hv]
    rcases hg : (env.net s.requests.length).json with _ | j
    · simp [hg]
    · simp [hg]
  · rw [hv]
    exact .inr (.inl ⟨m, rfl⟩)
  · rw [hv]
    exact .inr (.inr ⟨e, rfl⟩)

/-- The documented endpoint set of the spec, over the configurable base URL:
POST submit, GET check, GET status, DELETE status, GET model list, and the GET
of the static model-metadata document at its fixed URL. -/
def docReq (base : String) (r : Request) : Prop :=
  r = ⟨"POST", asyncURL base⟩
    ∨ (∃ id, r = ⟨"GET", checkURL base id⟩)
    ∨ (∃ id, r = ⟨"GET", statusURL base id⟩)
    ∨ (∃ id, r = ⟨"DELETE", statusURL base id⟩)
    ∨ r = ⟨"GET", modelsURL base⟩
    ∨ r = ⟨"GET", MODELS_DB_URL⟩

/-- "The new trace extends the old one only by documented requests." -/
def ReqSub (base : String) (old new : List Request) : Prop :=
  ∀ r ∈ new, r ∈ old ∨ docReq base r

theorem reqSub_refl (base : String) (l : List Request) : ReqSub base l l :=
  fun _ hr => .inl hr

theorem reqSub_trans {base : String} {a b c : List Request}
    (h1 : ReqSub base a b) (h2 : ReqSub base b c) : ReqSub base a c := by
  intro r hr
  rcases h2 r hr with h | h
  · exact h1 r h
  · exact .inr h

theorem reqSub_append (base : String) (l add : List Request)
    (h : ∀ r ∈ add, docReq base r) : ReqSub base l (l ++ add) := by
  intro r hr
  rcases List.mem_append.1 hr with h' | h'
  · exact .inl h'
  · exact .inr (h r h')

/-- C10's core: `generationFailed` clears the `generating` flag, fires one
DELETE per job still in the queue, empties the queue and returns `[]`. -/
theorem generationFailed_spec (s : St) :
    (generationFailed s).1 = []
      ∧ (generationFailed s).2.generating = false
      ∧ (generationFailed s).2.queue = []
      ∧ (generationFailed s).2.failedCalls = s.failedCalls + 1
      ∧ (generationFailed s).2.baseURL = s.baseURL
      ∧ (generationFailed s).2.sleepLog = s.sleepLog
      ∧ (∀ j ∈ s.queue,
          Request.mk "DELETE" (statusURL s.baseURL j.id) ∈ (generationFailed s).2.requests)
      ∧ ReqSub s.baseURL s.requests (generationFailed s).2.requests := by
  refine ⟨rfl, rfl, rfl, rfl, rfl, rfl, ?_, ?_⟩
  · intro j hj
    simp only [generationFailed, List.mem_append]
    exact .inr (List.mem_map_of_mem _ hj)
  · simp only [generationFailed]
    refine reqSub_append _ _ _ ?_
    intro r hr
    rcases List.mem_map.1 hr with ⟨el, _, rfl⟩
    exact .inr (.inr (.inr (.inl ⟨el.id, rfl⟩)))

theorem generationDone_frame (l : List FinalImage) (s : St) :
    (generationDone l s).2.queue = s.queue
      ∧ (generationDone l s).2.requests = s.requests
      ∧ (generationDone l s).2.failedCalls = s.failedCalls
      ∧ (generationDone l s).2.baseURL = s.baseURL
      ∧ (generationDone l s).2.generating = false
      ∧ (generationDone l s).2.sleepLog = s.sleepLog :=
  ⟨rfl, rfl, rfl, rfl, rfl, rfl⟩

/-- A completed pass of the inner for loop checks exactly the not-yet-done
jobs, in queue order, whatever the cancellation schedule does meanwhile (the
pass is never interrupted), and leaves the failure counter, the `generating`
flag and the sleep log untouched. -/
theorem pollJobs_cont (env : Env) (rest : List CurrentGeneration) :
    ∀ pre s s', pollJobs env pre rest s = .cont s' →
      s'.requests = s.requests
          ++ (rest.filter (fun j => !doneOf j.waitData)).map
              (fun j => Request.mk "GET" (checkURL s.baseURL j.id))
        ∧ s'.baseURL = s.baseURL ∧ s'.sleepLog = s.sleepLog
        ∧ s'.failedCalls = s.failedCalls ∧ s'.generating = s.generating := by
  induction rest with
  | nil =>
    intro pre s s' h
    unfold pollJobs at h
    cases h
    simp
  | cons q tail ih =>
    intro pre s s' h
    unfold pollJobs at h
    by_cases hd : doneOf q.waitData = true
    · rw [if_pos hd] at h
      have := ih (pre ++ [q]) s s' h
      simpa [hd] using this
    · rw [if_neg hd] at h
      rcases checkImage_cases env q.id s with ⟨w, hc⟩ | ⟨m, hc⟩ | ⟨e, hc⟩ <;> rw [hc] at h
      · obtain ⟨h1, h2, h3, h4, h5⟩ := ih _ _ _ h
        refine ⟨?_, ?_, ?_, ?_, ?_⟩
        · rw [h1]
          simp [fetched, hd, List.filter_cons]
        · rw [h2]; simp [fetched]
        · rw [h3]; simp [fetched]
        · rw [h4]; simp [fetched]
        · rw [h5]; simp [fetched]
      · simp at h
      · simp at h

/-- An aborted pass of the inner for loop went through `generationFailed`:
the queue is discarded, `generating` is cleared, the failure counter is
bumped, and only documented requests were added. -/
theorem pollJobs_failRet (env : Env) (rest : List CurrentGeneration) :
    ∀ pre s s', pollJobs env pre rest s = .failRet s' →
      s'.queue = [] ∧ s'.generating = false
        ∧ s'.failedCalls = s.failedCalls + 1 ∧ s'.baseURL = s.baseURL
        ∧ ReqSub s.baseURL s.requests s'.requests := by
  induction rest with
  | nil =>
    intro pre s s' h
    unfold pollJobs at h
    simp at h
  | cons q tail ih =>
    intro pre s s' h
    unfold pollJobs at h
    by_cases hd : doneOf q.waitData = true
    · rw [if_pos hd] at h
      exact ih (pre ++ [q]) s s' h
    · rw [if_neg hd] at h
      rcases checkImage_cases env q.id s with ⟨w, hc⟩ | ⟨m, hc⟩ | ⟨e, hc⟩ <;> rw [hc] at h
      · obtain ⟨h1, h2, h3, h4, h5⟩ := ih _ _ _ h
        refine ⟨h1, h2, by rw [h3]; simp [fetched], by rw [h4]; simp [fetched], ?_⟩
        refine reqSub_trans (b := (fetched env "GET" (checkURL s.baseURL q.id) s).requests) ?_ ?_
        · intro r hr
          simp only [fetched, List.mem_append, List.mem_singleton] at hr
          rcases hr with hr | hr
          · exact .inl hr
          · exact .inr (.inr (.inl ⟨q.id, hr⟩))
        · have : (fetched env "GET" (checkURL s.baseURL q.id) s).baseURL = s.baseURL := rfl
          rw [this] at h5
          exact h5
      · -- the failing check: generationFailed from the invalidated state
        have hs' : (generationFailed
            { invalidated m (fetched env "GET" (checkURL s.baseURL q.id) s) with
              queue := pre ++ q :: tail }).2 = s' := by
          cases h; rfl
        subst hs'
        obtain ⟨_, g2, g3, g4, g5, _, _, g8⟩ := generationFailed_spec
          { invalidated m (fetched env "GET" (checkURL s.baseURL q.id) s) with
            queue := pre ++ q :: tail }
        refine ⟨g3, g2, ?_, ?_, ?_⟩
        · rw [g4]; rfl
        · rw [g5]; rfl
        · have hr : ({ invalidated m (fetched env "GET" (checkURL s.baseURL q.id) s) with
              queue := pre ++ q :: tail } : St).requests
              = s.requests ++ [⟨"GET", checkURL s.baseURL q.id⟩] := rfl
          rw [hr] at g8
          refine reqSub_trans ?_ g8
          intro r hrr
          rcases List.mem_append.1 hrr with h' | h'
          · exact .inl h'
          · rw [List.mem_singleton] at h'
            exact .inr (.inr (.inl ⟨q.id, h'⟩))
      · simp at h

/-- A pass of the inner for loop that threw added only documented requests. -/
theorem pollJobs_threw (env : Env) (rest : List CurrentGeneration) :
    ∀ pre s e s', pollJobs env pre rest s = .threw e s' →
      s'.baseURL = s.baseURL ∧ ReqSub s.baseURL s.requests s'.requests := by
  induction rest with
  | nil =>
    intro pre s e s' h
    unfold pollJobs at h
    simp at h
  | cons q tail ih =>
    intro pre s e s' h
    unfold pollJobs at h
    by_cases hd : doneOf q.waitData = true
    · rw [if_pos hd] at h
      exact ih (pre ++ [q]) s e s' h
    · rw [if_neg hd] at h
      rcases checkImage_cases env q.id s with ⟨w, hc⟩ | ⟨m, hc⟩ | ⟨e', hc⟩ <;> rw [hc] at h
      · obtain ⟨h1, h2⟩ := ih _ _ _ _ h
        refine ⟨by rw [h1]; simp [fetched], ?_⟩
        refine reqSub_trans (b := (fetched env "GET" (checkURL s.baseURL q.id) s).requests) ?_ ?_
        · intro r hr
          simp only [fetched, List.mem_append, List.mem_singleton] at hr
          rcases hr with hr | hr
          · exact .inl hr
          · exact .inr (.inr (.inl ⟨q.id, hr⟩))
        · have : (fetched env "GET" (checkURL s.baseURL q.id) s).baseURL = s.baseURL := rfl
          rw [this] at h2
          exact h2
      · simp at h
      · cases h
        refine ⟨rfl, ?_⟩
        intro r hr
        simp only [fetched, List.mem_append, List.mem_singleton] at hr
        rcases hr with hr | hr
        · exact .inl hr
        · exact .inr (.inr (.inl ⟨q.id, hr⟩))

/-- The observable behaviour of the poll loop, for every fuel bound: a normal
exit happens exactly at a state satisfying the loop condition's negation
(every job done, or cancelled) with the failure counter and the `generating`
flag untouched and only whole 500 ms sleeps appended; an abort went through
`generationFailed`; and in all outcomes only documented requests are added. -/
theorem pollLoop_cases (env : Env) (fuel : Nat) :
    ∀ sec s,
      match pollLoop env fuel sec s with
      | .finished s' =>
          (allDone s'.queue || s'.cancelled) = true
            ∧ s'.failedCalls = s.failedCalls ∧ s'.generating = s.generating
            ∧ s'.baseURL = s.baseURL
            ∧ (∃ k, s'.sleepLog = s.sleepLog ++ List.replicate k 500)
            ∧ ReqSub s.baseURL s.requests s'.requests
      | .failRet s' =>
          s'.queue = [] ∧ s'.generating = false
            ∧ s'.failedCalls = s.failedCalls + 1 ∧ s'.baseURL = s.baseURL
            ∧ ReqSub s.baseURL s.requests s'.requests
      | .threw _ s' => s'.baseURL = s.baseURL ∧ ReqSub s.baseURL s.requests s'.requests
      | .fuelOut s' => s'.baseURL = s.baseURL ∧ ReqSub s.baseURL s.requests s'.requests := by
  induction fuel with
  | zero =>
    intro sec s
    by_cases hcond : (allDone s.queue || s.cancelled) = true
    · rw [show pollLoop env 0 sec s = .finished s by
        conv_lhs => unfold pollLoop
        rw [if_pos hcond]]
      exact ⟨hcond, rfl, rfl, rfl, ⟨0, by simp⟩, reqSub_refl _ _⟩
    · rw [show pollLoop env 0 sec s = .fuelOut s by
        conv_lhs => unfold pollLoop
        rw [if_neg hcond]]
      exact ⟨rfl, reqSub_refl _ _⟩
  | succ fuel ih =>
    intro sec s
    by_cases hcond : (allDone s.queue || s.cancelled) = true
    · rw [show pollLoop env (fuel + 1) sec s = .finished s by
        conv_lhs => unfold pollLoop
        rw [if_pos hcond]]
      exact ⟨hcond, rfl, rfl, rfl, ⟨0, by simp⟩, reqSub_refl _ _⟩
    · rcases hp : pollJobs env [] s.queue s with ⟨s2⟩ | ⟨s2⟩ | ⟨e, s2⟩
      · -- the pass completed: one progress update, one sleep, loop again
        have hstep : pollLoop env (fuel + 1) sec s
            = pollLoop env fuel (sec + 1)
                (doSleep env 500
                  (updateProgress (mergeObjects (s2.queue.map (·.waitData))) (sec + 1) s2)) := by
          conv_lhs => unfold pollLoop
          rw [if_neg hcond, hp]
        obtain ⟨hreq, hbase, hsleep, hfail, hgen⟩ := pollJobs_cont env s.queue [] s s2 hp
        set s3 := doSleep env 500
          (updateProgress (mergeObjects (s2.queue.map (·.waitData))) (sec + 1) s2) with hs3
        have h3base : s3.baseURL = s.baseURL := by
          simp [hs3, doSleep_eq, updateProgress, hbase]
        have h3fail : s3.failedCalls = s.failedCalls := by
          simp [hs3, doSleep_eq, updateProgress, hfail]
        have h3gen : s3.generating = s.generating := by
          simp [hs3, doSleep_eq, updateProgress, hgen]
        have h3sleep : s3.sleepLog = s.sleepLog ++ [500] := by
          simp [hs3, doSleep_eq, updateProgress, hsleep]
        have h3req : s3.requests = s2.requests := by
          simp [hs3, doSleep_eq, updateProgress]
        have hsub : ReqSub s.baseURL s.requests s3.requests := by
          rw [h3req, hreq]
          refine reqSub_append _ _ _ ?_
          intro r hr
          rcases List.mem_map.1 hr with ⟨j, _, rfl⟩
          exact .inr (.inl ⟨j.id, rfl⟩)
        rw [hstep]
        have ih3 := ih (sec + 1) s3
        rcases hres : pollLoop env fuel (sec + 1) s3 with ⟨s'⟩ | ⟨s'⟩ | ⟨e', s'⟩ | ⟨s'⟩ <;>
          rw [hres] at ih3
        · obtain ⟨i1, i2, i3, i4, i5, i6⟩ := ih3
          rw [h3base] at i6
          refine ⟨i1, by rw [i2, h3fail], by rw [i3, h3gen], by rw [i4, h3base], ?_,
            reqSub_trans hsub i6⟩
          obtain ⟨k, hk⟩ := i5
          exact ⟨k + 1, by rw [hk, h3sleep, List.append_assoc]; rfl⟩
        · obtain ⟨i1, i2, i3, i4, i5⟩ := ih3
          rw [h3base] at i5
          exact ⟨i1, i2, by rw [i3, h3fail], by rw [i4, h3base], reqSub_trans hsub i5⟩
        · obtain ⟨i1, i2⟩ := ih3
          rw [h3base] at i2
          exact ⟨by rw [i1, h3base], reqSub_trans hsub i2⟩
        · obtain ⟨i1, i2⟩ := ih3
          rw [h3base] at i2
          exact ⟨by rw [i1, h3base], reqSub_trans hsub i2⟩
      · -- the pass aborted through generationFailed
        rw [show pollLoop env (fuel + 1) sec s = .failRet s2 by
          conv_lhs => unfold pollLoop
          rw [if_neg hcond, hp]]
        exact pollJobs_failRet env s.queue [] s s2 hp
      · -- the pass threw
        rw [show pollLoop env (fuel + 1) sec s = .threw e s2 by
          conv_lhs => unfold pollLoop
          rw [if_neg hcond, hp]]
        exact pollJobs_threw env s.queue [] s e s2 hp

/-- The post-loop collection pass: a completed pass preserves the failure
counter, the `generating` flag and the queue; an aborted pass went through
`generationFailed`; only documented requests (DELETE when cancelled, GET
otherwise) are added in any outcome. -/
theorem finishJobs_cases (env : Env) (qc : List CurrentGeneration) :
    ∀ acc s,
      match finishJobs env qc acc s with
      | .ok _ s' =>
          s'.failedCalls = s.failedCalls ∧ s'.generating = s.generating
            ∧ s'.queue = s.queue ∧ s'.baseURL = s.baseURL
            ∧ ReqSub s.baseURL s.requests s'.requests
      | .falsy s' =>
          s'.queue = [] ∧ s'.generating = false
            ∧ s'.failedCalls = s.failedCalls + 1 ∧ s'.baseURL = s.baseURL
            ∧ ReqSub s.baseURL s.requests s'.requests
      | .threw _ s' => s'.baseURL = s.baseURL ∧ ReqSub s.baseURL s.requests s'.requests := by
  induction qc with
  | nil =>
    intro acc s
    rw [show finishJobs env [] acc s = .ok acc s from rfl]
    exact ⟨rfl, rfl, rfl, rfl, reqSub_refl _ _⟩
  | cons q tail ih =>
    intro acc s
    have hdoc : ∀ meth : String, meth = "DELETE" ∨ meth = "GET" →
        ∀ r ∈ [Request.mk meth (statusURL s.baseURL q.id)], docReq s.baseURL r := by
      intro meth hm r hr
      rw [List.mem_singleton] at hr
      rcases hm with rfl | rfl
      · exact .inr (.inr (.inr (.inl ⟨q.id, hr⟩)))
      · exact .inr (.inr (.inl ⟨q.id, hr⟩))
    by_cases hc : s.cancelled = true
    · rcases cancelImage_cases env q.id s with ⟨gens, hcc⟩ | ⟨m, hcc⟩ | hcc | ⟨e, hcc⟩
      · rw [show finishJobs env (q :: tail) acc s
            = finishJobs env tail (acc ++ gens)
                (fetched env "DELETE" (statusURL s.baseURL q.id) s) by
          conv_lhs => unfold finishJobs
          rw [if_pos hc, hcc]]
        have ih2 := ih (acc ++ gens) (fetched env "DELETE" (statusURL s.baseURL q.id) s)
        have hfsub : ReqSub s.baseURL s.requests
            (fetched env "DELETE" (statusURL s.baseURL q.id) s).requests :=
          reqSub_append _ _ _ (hdoc "DELETE" (.inl rfl))
        rcases hres : finishJobs env tail (acc ++ gens)
            (fetched env "DELETE" (statusURL s.baseURL q.id) s) with ⟨e', s'⟩ | ⟨s'⟩ | ⟨g', s'⟩ <;>
          rw [hres] at ih2
        · obtain ⟨i1, i2⟩ := ih2
          exact ⟨i1, reqSub_trans hfsub i2⟩
        · obtain ⟨i1, i2, i3, i4, i5⟩ := ih2
          exact ⟨i1, i2, i3, i4, reqSub_trans hfsub i5⟩
        · obtain ⟨i1, i2, i3, i4, i5⟩ := ih2
          exact ⟨i1, i2, i3, i4, reqSub_trans hfsub i5⟩
      · rw [show finishJobs env (q :: tail) acc s
            = .falsy (generationFailed
                (invalidated m (fetched env "DELETE" (statusURL s.baseURL q.id) s))).2 by
          unfold finishJobs; rw [if_pos hc, hcc]]
        obtain ⟨_, g2, g3, g4, g5, _, _, g8⟩ := generationFailed_spec
          (invalidated m (fetched env "DELETE" (statusURL s.baseURL q.id) s))
        refine ⟨g3, g2, by rw [g4]; rfl, by rw [g5]; rfl, ?_⟩
        have hr : (invalidated m (fetched env "DELETE" (statusURL s.baseURL q.id) s)).requests
            = s.requests ++ [⟨"DELETE", statusURL s.baseURL q.id⟩] := rfl
        rw [hr] at g8
        exact reqSub_trans (reqSub_append _ _ _ (hdoc "DELETE" (.inl rfl))) g8
      · rw [show finishJobs env (q :: tail) acc s
            = .falsy (generationFailed
                (fetched env "DELETE" (statusURL s.baseURL q.id) s)).2 by
          unfold finishJobs; rw [if_pos hc, hcc]]
        obtain ⟨_, g2, g3, g4, g5, _, _, g8⟩ := generationFailed_spec
          (fetched env "DELETE" (statusURL s.baseURL q.id) s)
        refine ⟨g3, g2, by rw [g4]; rfl, by rw [g5]; rfl, ?_⟩
        have hr : (fetched env "DELETE" (statusURL s.baseURL q.id) s).requests
            = s.requests ++ [⟨"DELETE", statusURL s.baseURL q.id⟩] := rfl
        rw [hr] at g8
        exact reqSub_trans (reqSub_append _ _ _ (hdoc "DELETE" (.inl rfl))) g8
      · rw [show finishJobs env (q :: tail) acc s
            = .threw e (fetched env "DELETE" (statusURL s.baseURL q.id) s) by
          unfold finishJobs; rw [if_pos hc, hcc]]
        exact ⟨rfl, reqSub_append _ _ _ (hdoc "DELETE" (.inl rfl))⟩
    · rcases getImageStatus_cases env q.id s with ⟨gens, hcc⟩ | ⟨m, hcc⟩ | hcc | ⟨e, hcc⟩
      · rw [show finishJobs env (q :: tail) acc s
            = finishJobs env tail (acc ++ gens)
                (fetched env "GET" (statusURL s.baseURL q.id) s) by
          conv_lhs => unfold finishJobs
          rw [if_neg hc, hcc]]
        have ih2 := ih (acc ++ gens) (fetched env "GET" (statusURL s.baseURL q.id) s)
        have hfsub : ReqSub s.baseURL s.requests
            (fetched env "GET" (statusURL s.baseURL q.id) s).requests :=
          reqSub_append _ _ _ (hdoc "GET" (.inr rfl))
        rcases hres : finishJobs env tail (acc ++ gens)
            (fetched env "GET" (statusURL s.baseURL q.id) s) with ⟨e', s'⟩ | ⟨s'⟩ | ⟨g', s'⟩ <;>
          rw [hres] at ih2
        · obtain ⟨i1, i2⟩ := ih2
          exact ⟨i1, reqSub_trans hfsub i2⟩
        · obtain ⟨i1, i2, i3, i4, i5⟩ := ih2
          exact ⟨i1, i2, i3, i4, reqSub_trans hfsub i5⟩
        · obtain ⟨i1, i2, i3, i4, i5⟩ := ih2
          exact ⟨i1, i2, i3, i4, reqSub_trans hfsub i5⟩
      · rw [show finishJobs env (q :: tail) acc s
            = .falsy (generationFailed
                (invalidated m (fetched env "GET" (statusURL s.baseURL q.id) s))).2 by
          unfold finishJobs; rw [if_neg hc, hcc]]
        obtain ⟨_, g2, g3, g4, g5, _, _, g8⟩ := generationFailed_spec
          (invalidated m (fetched env "GET" (statusURL s.baseURL q.id) s))
        refine ⟨g3, g2, by rw [g4]; rfl, by rw [g5]; rfl, ?_⟩
        have hr : (invalidated m (fetched env "GET" (statusURL s.baseURL q.id) s)).requests
            = s.requests ++ [⟨"GET", statusURL s.baseURL q.id⟩] := rfl
        rw [hr] at g8
        exact reqSub_trans (reqSub_append _ _ _ (hdoc "GET" (.inr rfl))) g8
      · rw [show finishJobs env (q :: tail) acc s
            = .falsy (generationFailed
                (fetched env "GET" (statusURL s.baseURL q.id) s)).2 by
          unfold finishJobs; rw [if_neg hc, hcc]]
        obtain ⟨_, g2, g3, g4, g5, _, _, g8⟩ := generationFailed_spec
          (fetched env "GET" (statusURL s.baseURL q.id) s)
        refine ⟨g3, g2, by rw [g4]; rfl, by rw [g5]; rfl, ?_⟩
        have hr : (fetched env "GET" (statusURL s.baseURL q.id) s).requests
            = s.requests ++ [⟨"GET", statusURL s.baseURL q.id⟩] := rfl
        rw [hr] at g8
        exact reqSub_trans (reqSub_append _ _ _ (hdoc "GET" (.inr rfl))) g8
      · rw [show finishJobs env (q :: tail) acc s
            = .threw e (fetched env "GET" (statusURL s.baseURL q.id) s) by
          unfold finishJobs; rw [if_neg hc, hcc]]
        exact ⟨rfl, reqSub_append _ _ _ (hdoc "GET" (.inr rfl))⟩

theorem fetchNewID_ok_state (env : Env) (t : St) (j : JsonVal) (s1 : St)
    (h : fetchNewID env t = .ok j s1) :
    s1 = fetched env "POST" (asyncURL t.baseURL) t := by
  rcases fetchNewID_cases env t with ⟨j2, h2⟩ | ⟨m2, h2⟩ | ⟨e2, h2⟩ <;> rw [h2] at h
  · injection h with _ h'
    exact h'.symm
  · cases h
  · cases h

/-- `finishPhase` ends with an empty queue whenever it returns normally, can
only have bumped the failure counter by aborting (in which case it returned
`[]` with `generating` cleared), and adds only documented requests. -/
theorem finishPhase_cases (env : Env) (pc : GenerationInput) (s : St) :
    (match finishPhase env pc s with
     | .ok imgs s' =>
         s'.queue = []
           ∧ (s.failedCalls < s'.failedCalls → imgs = [] ∧ s'.generating = false)
     | _ => True)
      ∧ ReqSub s.baseURL s.requests (stateOfRun (finishPhase env pc s)).requests
      ∧ (stateOfRun (finishPhase env pc s)).baseURL = s.baseURL := by
  have hfacts := finishJobs_cases env s.queue [] { s with queue := [] }
  rcases hres : finishJobs env s.queue [] { s with queue := [] } with ⟨e, s3⟩ | ⟨s3⟩ | ⟨g, s3⟩ <;>
    rw [hres] at hfacts
  · rw [show finishPhase env pc s = .err e s3 by
      conv_lhs => unfold finishPhase
      rw [hres]]
    obtain ⟨i1, i2⟩ := hfacts
    exact ⟨trivial, i2, i1⟩
  · rw [show finishPhase env pc s = .ok [] s3 by
      conv_lhs => unfold finishPhase
      rw [hres]]
    obtain ⟨i1, i2, i3, i4, i5⟩ := hfacts
    exact ⟨⟨i1, fun _ => ⟨rfl, i2⟩⟩, i5, i4⟩
  · rw [show finishPhase env pc s
        = .ok (generationDone (g.map (mergeWithInput pc)) s3).1
              (generationDone (g.map (mergeWithInput pc)) s3).2 by
      conv_lhs => unfold finishPhase
      rw [hres]]
    obtain ⟨i1, i2, i3, i4, i5⟩ := hfacts
    obtain ⟨d1, d2, d3, d4, _, _⟩ := generationDone_frame (g.map (mergeWithInput pc)) s3
    refine ⟨⟨?_, ?_⟩, ?_, ?_⟩
    · rw [d1, i3]
    · intro hlt
      exfalso
      rw [d3, i1] at hlt
      exact Nat.lt_irrefl _ hlt
    · show ReqSub s.baseURL s.requests
        (generationDone (g.map (mergeWithInput pc)) s3).2.requests
      rw [d2]
      exact i5
    · show (generationDone (g.map (mergeWithInput pc)) s3).2.baseURL = s.baseURL
      rw [d4]
      exact i4

/-- The poll-and-finish tail of `generateImage`: a normal return always ends
with an empty queue, a bumped failure counter implies the `[]`-return of
`generationFailed` with `generating` cleared, and only documented requests
are added in any outcome. -/
theorem runPollAndFinish_cases (env : Env) (fuel : Nat) (pc : GenerationInput) (s : St) :
    (match runPollAndFinish env fuel pc s with
     | .ok imgs s' =>
         s'.queue = []
           ∧ (s.failedCalls < s'.failedCalls → imgs = [] ∧ s'.generating = false)
     | _ => True)
      ∧ ReqSub s.baseURL s.requests (stateOfRun (runPollAndFinish env fuel pc s)).requests
      ∧ (stateOfRun (runPollAndFinish env fuel pc s)).baseURL = s.baseURL := by
  have hfacts := pollLoop_cases env fuel 0 s
  rcases hpl : pollLoop env fuel 0 s with ⟨s2⟩ | ⟨s2⟩ | ⟨e, s2⟩ | ⟨s2⟩ <;> rw [hpl] at hfacts
  · -- normal loop exit: continue with finishPhase
    rw [show runPollAndFinish env fuel pc s = finishPhase env pc s2 by
      conv_lhs => unfold runPollAndFinish
      rw [hpl]]
    obtain ⟨_, p2, _, p4, _, p6⟩ := hfacts
    obtain ⟨f1, f2, f3⟩ := finishPhase_cases env pc s2
    rw [p4] at f2 f3
    refine ⟨?_, reqSub_trans p6 f2, f3⟩
    rcases hfp : finishPhase env pc s2 with ⟨imgs, s'⟩ | ⟨e', s'⟩ | ⟨s'⟩ <;> rw [hfp] at f1
    · obtain ⟨q1, q2⟩ := f1
      refine ⟨q1, ?_⟩
      intro hlt
      exact q2 (by rw [p2]; exact hlt)
    · trivial
    · trivial
  · rw [show runPollAndFinish env fuel pc s = .ok [] s2 by
      conv_lhs => unfold runPollAndFinish
      rw [hpl]]
    obtain ⟨p1, p2, _, p4, p5⟩ := hfacts
    exact ⟨⟨p1, fun _ => ⟨rfl, p2⟩⟩, p5, p4⟩
  · rw [show runPollAndFinish env fuel pc s = .err e s2 by
      conv_lhs => unfold runPollAndFinish
      rw [hpl]]
    exact ⟨trivial, hfacts.2, hfacts.1⟩
  · rw [show runPollAndFinish env fuel pc s = .fuelOut s2 by
      conv_lhs => unfold runPollAndFinish
      rw [hpl]]
    exact ⟨trivial, hfacts.2, hfacts.1⟩

/-- C10.  Error handling of `generateImage`: (1) `generationFailed` itself
returns `[]`, clears the `generating` flag, issues a cancel DELETE for every
job still in the queue and then discards the queue; (2) whenever
`generationFailed` was invoked during a completed `generateImage` run —
observable as a bump of the invocation counter, which happens exactly when a
submission, poll check, cancellation or final-status step returned a falsy
result — the run returns the empty list with `generating` false and the queue
empty. -/
theorem c10_generationFailed_on_failure :
    (∀ s : St,
        (generationFailed s).1 = []
          ∧ (generationFailed s).2.generating = false
          ∧ (generationFailed s).2.queue = []
          ∧ ∀ j ∈ s.queue,
              Request.mk "DELETE" (statusURL s.baseURL j.id)
                ∈ (generationFailed s).2.requests)
      ∧ (∀ env fuel type s imgs s',
          generateImage env fuel type s = .ok imgs s' →
          s.failedCalls < s'.failedCalls →
          imgs = [] ∧ s'.generating = false ∧ s'.queue = []) := by
  constructor
  · intro s
    obtain ⟨g1, g2, g3, _, _, _, g7, _⟩ := generationFailed_spec s
    exact ⟨g1, g2, g3, g7⟩
  · intro env fuel type s imgs s' hrun hlt
    unfold generateImage at hrun
    by_cases hp : (s.prompt == "") = true
    · rw [if_pos hp] at hrun
      injection hrun with h1 h2
      subst h2
      exact absurd hlt (Nat.lt_irrefl _)
    · rw [if_neg hp] at hrun
      split at hrun
      · cases hrun
      · rename_i model hcm
        split at hrun
        · cases hrun
        · -- submission returned falsy: the run is generationFailed's result
          rename_i s1 hfv
          injection hrun with h1 h2
          obtain ⟨g1, g2, g3, _, _, _, _, _⟩ := generationFailed_spec s1
          subst h2
          exact ⟨h1 ▸ g1, g2, g3⟩
        · rename_i resJSON s1 hok
          have hfin := runPollAndFinish_cases env fuel (paramsCachedOf type model s)
            { s1 with images := [],
                      queue := s1.queue ++
                        [{ input := paramsCachedOf type model s,
                           id := resJSON.id.getD "undefined", waitData := none }] }
          rw [hrun] at hfin
          obtain ⟨⟨hq, himp⟩, _, _⟩ := hfin
          have hs1 := fetchNewID_ok_state env { s with generating := true } resJSON s1 hok
          subst hs1
          obtain ⟨h1, h2⟩ := himp hlt
          exact ⟨h1, h2, hq⟩

/-- C3.  The poll loop: (1) when every queued job's done flag is set or the
cancelled flag is set, the loop exits immediately, touching nothing; (2) a
normal exit of the loop happens only in a state where every queued job is
done or the cancelled flag is set — the condition is checked between
iterations only; (3) one pass of the loop body issues exactly one status
check per not-yet-done job, in queue order, whatever the cancellation
schedule does during the pass (a mid-pass cancellation never interrupts the
in-flight checks); (4) the loop sleeps in whole 500 ms intervals — the fixed
poll cadence. -/
theorem c3_pollLoop_fixed_interval_retry :
    (∀ (env : Env) (fuel sec : Nat) (s : St),
        (allDone s.queue || s.cancelled) = true →
        pollLoop env fuel sec s = .finished s)
      ∧ (∀ (env : Env) (fuel sec : Nat) (s s' : St),
          pollLoop env fuel sec s = .finished s' →
          (allDone s'.queue || s'.cancelled) = true)
      ∧ (∀ (env : Env) (pre rest : List CurrentGeneration) (s s' : St),
          pollJobs env pre rest s = .cont s' →
          s'.requests = s.requests
            ++ (rest.filter (fun j => !doneOf j.waitData)).map
                (fun j => Request.mk "GET" (checkURL s.baseURL j.id)))
      ∧ (∀ (env : Env) (fuel sec : Nat) (s s' : St),
          pollLoop env fuel sec s = .finished s' →
          ∃ k, s'.sleepLog = s.sleepLog ++ List.replicate k 500) := by
  refine ⟨?_, ?_, ?_, ?_⟩
  · intro env fuel sec s hcond
    conv_lhs => unfold pollLoop
    rw [if_pos hcond]
  · intro env fuel sec s s' h
    have := pollLoop_cases env fuel sec s
    rw [h] at this
    exact this.1
  · intro env pre rest s s' h
    exact (pollJobs_cont env rest pre s s' h).1
  · intro env fuel sec s s' h
    have := pollLoop_cases env fuel sec s
    rw [h] at this
    exact this.2.2.2.2.1

/-- Witness for C3: on an already-satisfied condition (empty queue) the loop
exits immediately with the state untouched. -/
theorem c3_witness :
    pollLoop constEnv 3 0 testState = LoopRes.finished testState :=
  c3_pollLoop_fixed_interval_retry.1 constEnv 3 0 testState (by decide)

/-- A response on which `cancelImage` succeeds: expected status, a body, and
a `generations` key. -/
def goodCancelResp (r : NetResp) : Prop :=
  r.status = 200 ∧ r.json.isSome = true ∧ (r.json.bind (·.generations)).isSome = true

theorem cancelImage_good (env : Env) (imageID : String) (s : St)
    (h : goodCancelResp (env.net s.requests.length)) :
    ∃ gens, cancelImage env imageID s
      = .ok gens (fetched env "DELETE" (statusURL s.baseURL imageID) s) := by
  obtain ⟨h1, h2, h3⟩ := h
  rcases hg : (env.net s.requests.length).json.bind (·.generations) with _ | gens
  · rw [hg] at h3
    simp at h3
  · refine ⟨gens, ?_⟩
    simp only [cancelImage, doFetch_eq]
    rw [validateResponse_good _ _ _ _ _ h1 h2]
    simp [hg]

/-- When the cancelled flag is set and every response is good, the
post-loop pass DELETEs every cached job, in order, keeping the queue and the
already-recorded requests. -/
theorem finishJobs_cancelled_good (env : Env) (qc : List CurrentGeneration)
    (hg : ∀ n, goodCancelResp (env.net n)) :
    ∀ acc s, s.cancelled = true →
      ∃ gens s', finishJobs env qc acc s = .ok gens s'
        ∧ s'.queue = s.queue ∧ s'.baseURL = s.baseURL
        ∧ (∀ r ∈ s.requests, r ∈ s'.requests)
        ∧ ∀ j ∈ qc, Request.mk "DELETE" (statusURL s.baseURL j.id) ∈ s'.requests := by
  induction qc with
  | nil =>
    intro acc s _
    exact ⟨acc, s, rfl, rfl, rfl, fun _ hr => hr, by simp⟩
  | cons q tail ih =>
    intro acc s hc
    obtain ⟨gens, hok⟩ := cancelImage_good env q.id s (hg s.requests.length)
    have hstep : finishJobs env (q :: tail) acc s
        = finishJobs env tail (acc ++ gens)
            (fetched env "DELETE" (statusURL s.baseURL q.id) s) := by
      conv_lhs => unfold finishJobs
      rw [if_pos hc, hok]
    have h1c : (fetched env "DELETE" (statusURL s.baseURL q.id) s).cancelled = true := by
      simp [fetched, hc]
    obtain ⟨gens2, s', hfin, hq, hb, hmono, hdel⟩ :=
      ih (acc ++ gens) (fetched env "DELETE" (statusURL s.baseURL q.id) s) h1c
    refine ⟨gens2, s', by rw [hstep, hfin], ?_, ?_, ?_, ?_⟩
    · rw [hq]; rfl
    · rw [hb]; rfl
    · intro r hr
      refine hmono r ?_
      rw [show (fetched env "DELETE" (statusURL s.baseURL q.id) s).requests
          = s.requests ++ [⟨"DELETE", statusURL s.baseURL q.id⟩] from rfl]
      exact List.mem_append_left _ hr
    · intro j hj
      rcases List.mem_cons.1 hj with rfl | hj
      · refine hmono _ ?_
        rw [show (fetched env "DELETE" (statusURL s.baseURL j.id) s).requests
            = s.requests ++ [⟨"DELETE", statusURL s.baseURL j.id⟩] from rfl]
        exact List.mem_append_right _ (List.mem_singleton_self _)
      · have := hdel j hj
        rw [show (fetched env "DELETE" (statusURL s.baseURL q.id) s).baseURL
            = s.baseURL from rfl] at this
        exact this

/-- C2 (amended).  With the cancelled flag set at the end of the poll loop,
the post-loop phase of `generateImage` discards the queue (it is empty when
the phase returns) and — provided every cancel response is valid — sends a
DELETE to the job-status endpoint for every job that was in the local queue.
When a cancel response is invalid, `generateImage` aborts via
`generationFailed` after the failing job's DELETE, and jobs after it in the
queue receive none (see the counterexample); the queue is discarded in every
case. -/
theorem c2_amended_cancellation (env : Env) (pc : GenerationInput) (s : St)
    (hc : s.cancelled = true) (hg : ∀ n, goodCancelResp (env.net n)) :
    match finishPhase env pc s with
    | .ok _ s' =>
        s'.queue = []
          ∧ ∀ j ∈ s.queue,
              Request.mk "DELETE" (statusURL s.baseURL j.id) ∈ s'.requests
    | _ => False := by
  obtain ⟨gens, s', hfin, hq, hb, hmono, hdel⟩ :=
    finishJobs_cancelled_good env s.queue hg [] { s with queue := [] } hc
  rw [show finishPhase env pc s
      = .ok (generationDone (gens.map (mergeWithInput pc)) s').1
            (generationDone (gens.map (mergeWithInput pc)) s').2 by
    conv_lhs => unfold finishPhase
    rw [hfin]]
  obtain ⟨d1, d2, _, _, _, _⟩ := generationDone_frame (gens.map (mergeWithInput pc)) s'
  refine ⟨?_, ?_⟩
  · rw [d1, hq]
  · intro j hj
    rw [d2]
    exact hdel j hj

/-- A concrete cached input, as `generateImage` would assemble it from the
test state. -/
def wInput : GenerationInput where
  prompt := "a cat"
  params := getDefaultStore
  nsfw := true
  censor_nsfw := false
  trusted_workers := false
  source_image := none
  source_mask := none
  source_processing := none
  workers := none
  models := ["stable_diffusion"]

/-- A job sitting in the local queue with server id "a". -/
def jobA : CurrentGeneration := { input := wInput, id := "a" }

/-- An environment whose every response is a valid cancel response. -/
def goodEnv : Env where
  net := fun _ => { status := 200, json := some { generations := some [] } }
  cancelAt := fun _ => false
  dbJSON := []
  randomIndex := 0

/-- Witness for C2 (amended): a cancelled state with one queued job against
an all-valid environment. -/
theorem c2_amended_witness :
    (stateOfRun (finishPhase goodEnv wInput
        { testState with cancelled := true, queue := [jobA] })).queue = []
      ∧ Request.mk "DELETE" (statusURL "B" "a")
          ∈ (stateOfRun (finishPhase goodEnv wInput
              { testState with cancelled := true, queue := [jobA] })).requests := by
  have h := c2_amended_cancellation goodEnv wInput
      { testState with cancelled := true, queue := [jobA] } rfl (fun _ => ⟨rfl, rfl, rfl⟩)
  rcases hfp : finishPhase goodEnv wInput
      { testState with cancelled := true, queue := [jobA] } with ⟨imgs, s'⟩ | ⟨e, s'⟩ | ⟨s'⟩ <;>
    rw [hfp] at h
  · obtain ⟨h1, h2⟩ := h
    exact ⟨h1, h2 jobA (List.mem_singleton_self _)⟩
  · exact h.elim
  · exact h.elim

/-- The environment of the C2 counterexample: the submission succeeds with
job id "b", the cancelled flag is raised at the first yield point (right
after the submission fetch), and the DELETE for job "a" gets an invalid
response (404 with a message body). -/
def c2env : Env where
  net := fun n =>
    if n == 0 then { status := 202, json := some { id := some "b" } }
    else { status := 404, json := some { message := some "nope" } }
  cancelAt := fun n => n == 0
  dbJSON := []
  randomIndex := 0

/-- The initial state of the C2 counterexample: job "a" already queued. -/
def c2s0 : St := { testState with queue := [jobA] }

/-- C2 counterexample.  The cancelled flag is set during this `generateImage`
run (the run takes the cancel path: job "a" receives its DELETE), the jobs
"a" and "b" were both in the local queue, yet no DELETE is ever sent for job
"b": the invalid response to job "a"'s cancel aborts the run through
`generationFailed` first.  The queue-discard half of the claim does hold
(the final queue is empty). -/
theorem c2_counterexample :
    requestsOfRun (generateImage c2env 5 GenType.text2img c2s0)
        = [⟨"POST", "B/api/v2/generate/async"⟩,
           ⟨"DELETE", "B/api/v2/generate/status/a"⟩]
      ∧ Request.mk "DELETE" "B/api/v2/generate/status/b"
          ∉ requestsOfRun (generateImage c2env 5 GenType.text2img c2s0)
      ∧ (stateOfRun (generateImage c2env 5 GenType.text2img c2s0)).queue = [] := by
  refine ⟨by decide, by decide, by decide⟩

/-- Witness for C10: `generationFailed` on a state with one queued job. -/
theorem c10_witness :
    (generationFailed { testState with queue := [jobA] }).1 = []
      ∧ (generationFailed { testState with queue := [jobA] }).2.generating = false
      ∧ (generationFailed { testState with queue := [jobA] }).2.queue = []
      ∧ Request.mk "DELETE" (statusURL "B" "a")
          ∈ (generationFailed { testState with queue := [jobA] }).2.requests := by
  obtain ⟨h1, h2, h3, h4⟩ :=
    c10_generationFailed_on_failure.1 { testState with queue := [jobA] }
  exact ⟨h1, h2, h3, h4 jobA (List.mem_singleton_self _)⟩

/-- Every request a `generateImage` run adds to the trace targets a
documented endpoint on the configured base URL. -/
theorem generateImage_reqSub (env : Env) (fuel : Nat) (type : GenType) (s : St) :
    ReqSub s.baseURL s.requests (stateOfRun (generateImage env fuel type s)).requests := by
  unfold generateImage
  by_cases hp : (s.prompt == "") = true
  · rw [if_pos hp]
    exact reqSub_refl _ _
  · rw [if_neg hp]
    rcases hcm : chooseModel env s with e | model <;> simp only [hcm]
    · exact reqSub_refl _ _
    · rcases fetchNewID_cases env { s with generating := true }
          with ⟨j, hcc⟩ | ⟨m, hcc⟩ | ⟨e, hcc⟩ <;> simp only [hcc]
      · -- submission succeeded: the POST, then the poll-and-finish tail
        obtain ⟨_, r2, _⟩ := runPollAndFinish_cases env fuel (paramsCachedOf type model s)
          { fetched env "POST" (asyncURL ({ s with generating := true } : St).baseURL)
              { s with generating := true } with
            images := [],
            queue := (fetched env "POST" (asyncURL ({ s with generating := true } : St).baseURL)
                { s with generating := true }).queue
              ++ [{ input := paramsCachedOf type model s,
                    id := j.id.getD "undefined", waitData := none }] }
        refine reqSub_trans ?_ r2
        intro r hr
        rw [show ({ fetched env "POST" (asyncURL ({ s with generating := true } : St).baseURL)
              { s with generating := true } with
            images := ([] : List ImageData),
            queue := (fetched env "POST" (asyncURL ({ s with generating := true } : St).baseURL)
                { s with generating := true }).queue
              ++ [{ input := paramsCachedOf type model s,
                    id := j.id.getD "undefined", waitData := none }] } : St).requests
            = s.requests ++ [⟨"POST", asyncURL s.baseURL⟩] from rfl] at hr
        rcases List.mem_append.1 hr with hr | hr
        · exact .inl hr
        · rw [List.mem_singleton] at hr
          exact .inr (.inl hr)
      · -- submission invalid: generationFailed's DELETEs on top of the POST
        obtain ⟨_, _, _, _, _, _, _, g8⟩ := generationFailed_spec
          (invalidated m (fetched env "POST" (asyncURL ({ s with generating := true } : St).baseURL)
            { s with generating := true }))
        refine reqSub_trans ?_ g8
        intro r hr
        rw [show (invalidated m (fetched env "POST"
              (asyncURL ({ s with generating := true } : St).baseURL)
              { s with generating := true })).requests
            = s.requests ++ [⟨"POST", asyncURL s.baseURL⟩] from rfl] at hr
        rcases List.mem_append.1 hr with hr | hr
        · exact .inl hr
        · rw [List.mem_singleton] at hr
          exact .inr (.inl hr)
      · -- submission threw: just the POST
        intro r hr
        rw [show (stateOfRun (RunResult.err e
              (fetched env "POST" (asyncURL ({ s with generating := true } : St).baseURL)
                { s with generating := true }))).requests
            = s.requests ++ [⟨"POST", asyncURL s.baseURL⟩] from rfl] at hr
        rcases List.mem_append.1 hr with hr | hr
        · exact .inl hr
        · rw [List.mem_singleton] at hr
          exact .inr (.inl hr)

/-- Every request an `updateAvailableModels` run adds targets the documented
model-list endpoint or the fixed static-database URL. -/
theorem updateAvailableModels_reqSub (env : Env) (s : St) :
    ReqSub s.baseURL s.requests (stateOfUpdate (updateAvailableModels env s)).requests := by
  unfold updateAvailableModels
  simp only [doFetch_eq]
  have hget : ∀ r ∈ (fetched env "GET" (modelsURL s.baseURL) s).requests,
      r ∈ s.requests ∨ docReq s.baseURL r := by
    intro r hr
    rw [show (fetched env "GET" (modelsURL s.baseURL) s).requests
        = s.requests ++ [⟨"GET", modelsURL s.baseURL⟩] from rfl] at hr
    rcases List.mem_append.1 hr with hr | hr
    · exact .inl hr
    · rw [List.mem_singleton] at hr
      exact .inr (.inr (.inr (.inr (.inr (.inl hr)))))
  rcases validateResponse_cases (env.net s.requests.length).status
      (env.net s.requests.length).json 200 "Failed to get available models"
      (fetched env "GET" (modelsURL s.baseURL) s)
      with hv | ⟨m, hv⟩ | ⟨_, e, hv⟩ <;> simp only [hv]
  · rcases hmj : (env.net s.requests.length).json.bind (·.models) with _ | live <;>
      simp only [hmj]
    · exact hget
    · show ReqSub s.baseURL s.requests
        ((fetched env "GET" (modelsURL s.baseURL) s).requests
          ++ [Request.mk "GET" MODELS_DB_URL])
      intro r hr
      rcases List.mem_append.1 hr with hr | hr
      · exact hget r hr
      · rw [List.mem_singleton] at hr
        exact .inr (.inr (.inr (.inr (.inr (.inr hr)))))
  · exact hget
  · exact hget

/-- C5.  Every network operation of the client targets a documented endpoint
with its documented method: any request found in the trace of a
`generateImage` run or of an `updateAvailableModels` run that was not already
there is the POST to `/api/v2/generate/async`, a GET of
`/api/v2/generate/check/:id`, a GET of `/api/v2/generate/status/:id`, a
DELETE of `/api/v2/generate/status/:id`, the GET of `/api/v2/status/models`
— all on the configurable base URL — or the GET of the static model-metadata
document at the fixed `MODELS_DB_URL`. -/
theorem c5_documented_endpoints :
    (∀ (env : Env) (fuel : Nat) (type : GenType) (s : St),
        ∀ r ∈ (stateOfRun (generateImage env fuel type s)).requests,
          r ∈ s.requests ∨ docReq s.baseURL r)
      ∧ (∀ (env : Env) (s : St),
          ∀ r ∈ (stateOfUpdate (updateAvailableModels env s)).requests,
            r ∈ s.requests ∨ docReq s.baseURL r) :=
  ⟨fun env fuel type s => generateImage_reqSub env fuel type s,
   fun env s => updateAvailableModels_reqSub env s⟩

/-- Witness for C5: the submission request of a concrete run is documented. -/
theorem c5_witness :
    Request.mk "POST" "B/api/v2/generate/async" ∈ c2s0.requests
      ∨ docReq "B" (Request.mk "POST" "B/api/v2/generate/async") :=
  c5_documented_endpoints.1 c2env 5 GenType.text2img c2s0
    (Request.mk "POST" "B/api/v2/generate/async") (by decide)

/-- In a list whose names are distinct, the name determines the entry. -/
theorem nodup_name_inj {l : List ActiveModel}
    (h : (l.map (·.name)).Nodup) :
    ∀ a ∈ l, ∀ b ∈ l, a.name = b.name → a = b := by
  induction l with
  | nil =>
    intro a ha
    exact absurd ha (List.not_mem_nil a)
  | cons x tl ih =>
    rw [List.map_cons, List.nodup_cons] at h
    intro a ha b hb hab
    rcases List.mem_cons.1 ha with ha1 | ha2
    · rcases List.mem_cons.1 hb with hb1 | hb2
      · rw [ha1, hb1]
      · exfalso
        apply h.1
        rw [show x.name = b.name from by rw [← ha1, hab]]
        exact List.mem_map_of_mem _ hb2
    · rcases List.mem_cons.1 hb with hb1 | hb2
      · exfalso
        apply h.1
        rw [show x.name = a.name from by rw [← hb1, ← hab]]
        exact List.mem_map_of_mem _ ha2
      · exact ih h.2 a ha2 b hb2 hab

/-- With distinct live names, the sorted list's first hit for a name is the
(unique) live entry carrying it. -/
theorem find?_sorted_of_mem {live : List ActiveModel} {el : ActiveModel} {nm : String}
    (hnd : (live.map (·.name)).Nodup) (hmem : el ∈ live) (hname : el.name = nm) :
    (sortByCountDesc live).find? (fun x => x.name == nm) = some el := by
  have hperm : List.Perm (sortByCountDesc live) live :=
    List.perm_insertionSort _ live
  rcases hf : (sortByCountDesc live).find? (fun x => x.name == nm) with _ | found
  · exfalso
    rw [List.find?_eq_none] at hf
    exact hf el (hperm.mem_iff.2 hmem) (by simp [hname])
  · have hfmem : found ∈ live := hperm.mem_iff.1 (List.mem_of_find?_eq_some hf)
    have hfp := List.find?_some hf
    have heq : found = el :=
      nodup_name_inj hnd found hfmem el hmem (by rw [eq_of_beq hfp, hname])
    rw [hf, heq]

/-- When no live entry carries the name, neither does the sorted list. -/
theorem find?_sorted_of_not_mem {live : List ActiveModel} {nm : String}
    (h : ∀ el ∈ live, el.name ≠ nm) :
    (sortByCountDesc live).find? (fun x => x.name == nm) = none := by
  have hperm : List.Perm (sortByCountDesc live) live :=
    List.perm_insertionSort _ live
  rw [List.find?_eq_none]
  intro x hx
  have := h x (hperm.mem_iff.1 hx)
  simp [this]

/-- The merged record keeps the database record's name in both branches. -/
theorem mergeModel_name (live : List ActiveModel) (rec : DbRecord) :
    (mergeModel live rec).name = rec.name := by
  rcases h : live.find? (fun el => el.name == rec.name) with _ | el <;>
    simp [mergeModel, h]

/-- When the database names are distinct, filtering the merged list by one
record's name keeps exactly that record's merge. -/
theorem filter_map_modelsData (db : List DbRecord) (f : DbRecord → IModelData)
    (hf : ∀ rec, (f rec).name = rec.name)
    (hdb : (db.map (·.name)).Nodup) :
    ∀ rec ∈ db, (db.map f).filter (fun m => m.name == rec.name) = [f rec] := by
  induction db with
  | nil =>
    intro rec h
    exact absurd h (List.not_mem_nil rec)
  | cons a tl ih =>
    rw [List.map_cons, List.nodup_cons] at hdb
    intro rec hrec
    rcases List.mem_cons.1 hrec with rfl | htl
    · rw [List.map_cons, List.filter_cons, if_pos (by simp [hf])]
      have htlnil : (tl.map f).filter (fun m => m.name == rec.name) = [] := by
        rw [List.filter_eq_nil_iff]
        intro x hx
        rcases List.mem_map.1 hx with ⟨b, hb, rfl⟩
        simp only [hf, beq_iff_eq]
        intro hcon
        exact hdb.1 (hcon ▸ List.mem_map_of_mem _ hb)
      rw [htlnil]
    · rw [List.map_cons, List.filter_cons, if_neg ?_]
      · exact ih hdb.2 rec htl
      · simp only [hf, beq_iff_eq]
        intro hcon
        exact hdb.1 (hcon ▸ List.mem_map_of_mem _ htl)

/-- With a valid model-list response carrying `live`, `updateAvailableModels`
completes and rebuilds `modelsData` as the merge of every static-database
record with the sorted live list. -/
theorem updateAvailableModels_done (env : Env) (s : St) (live : List ActiveModel)
    (hresp : env.net s.requests.length
      = { status := 200, json := some { models := some live } }) :
    ∃ s', updateAvailableModels env s = .done s'
      ∧ s'.modelsData = env.dbJSON.map (mergeModel (sortByCountDesc live)) := by
  unfold updateAvailableModels
  simp only [doFetch_eq, hresp]
  have hv : validateResponse 200 (some { models := some live }) 200
      "Failed to get available models" (fetched env "GET" (modelsURL s.baseURL) s)
      = .ok (true, fetched env "GET" (modelsURL s.baseURL) s) :=
    validateResponse_good _ _ _ _ _ rfl rfl
  simp only [hv, Option.some_bind]
  exact ⟨_, rfl, rfl⟩

/-- C6.  After a successful `updateAvailableModels` run (valid live response,
distinct names): for every record of the static database, `modelsData`
contains exactly one record of that name; it carries the static description,
style, nsfw and type fields, and — when a live entry of the same name exists
— that entry's count, performance, eta and queued values, and otherwise
count 0, performance 0, queued 0 and eta Infinity. -/
theorem c6_updateAvailableModels_merge (env : Env) (s : St) (live : List ActiveModel)
    (hresp : env.net s.requests.length
      = { status := 200, json := some { models := some live } })
    (hdb : (env.dbJSON.map (·.name)).Nodup)
    (hlive : (live.map (·.name)).Nodup) :
    match updateAvailableModels env s with
    | .done s' =>
        ∀ rec ∈ env.dbJSON,
          (s'.modelsData.filter (fun m => m.name == rec.name)).length = 1
            ∧ ∀ r ∈ s'.modelsData.filter (fun m => m.name == rec.name),
                r.name = rec.name ∧ r.description = rec.description
                  ∧ r.style = rec.style ∧ r.nsfw = rec.nsfw ∧ r.type = rec.type
                  ∧ (∀ el ∈ live, el.name = rec.name →
                      r.count = el.count ∧ r.performance = el.performance
                        ∧ r.eta = EtaVal.fin el.eta ∧ r.queued = el.queued)
                  ∧ ((∀ el ∈ live, el.name ≠ rec.name) →
                      r.count = 0 ∧ r.performance = 0 ∧ r.eta = EtaVal.infinity
                        ∧ r.queued = 0)
    | .threw _ _ => False := by
  obtain ⟨s', hdone, hmd⟩ := updateAvailableModels_done env s live hresp
  rw [hdone]
  intro rec hrec
  have hfil := filter_map_modelsData env.dbJSON (mergeModel (sortByCountDesc live))
    (fun rec2 => mergeModel_name _ rec2) hdb rec hrec
  rw [hmd, hfil]
  refine ⟨rfl, ?_⟩
  intro r hr
  rw [List.mem_singleton] at hr
  subst hr
  by_cases hex : ∃ el, el ∈ live ∧ el.name = rec.name
  · obtain ⟨el, hel, hname⟩ := hex
    have hfind := find?_sorted_of_mem hlive hel hname
    have hmm : mergeModel (sortByCountDesc live) rec
        = { name := rec.name, count := el.count, performance := el.performance,
            description := rec.description, style := rec.style, nsfw := rec.nsfw,
            type := rec.type, eta := EtaVal.fin el.eta, queued := el.queued } := by
      simp [mergeModel, hfind]
    rw [hmm]
    refine ⟨rfl, rfl, rfl, rfl, rfl, ?_, ?_⟩
    · intro el2 hel2 hname2
      have heq : el2 = el := nodup_name_inj hlive el2 hel2 el hel (by rw [hname2, hname])
      subst heq
      exact ⟨rfl, rfl, rfl, rfl⟩
    · intro hnone
      exact absurd hname (hnone el hel)
  · push_neg at hex
    have hfind := find?_sorted_of_not_mem hex
    have hmm : mergeModel (sortByCountDesc live) rec
        = { name := rec.name, count := 0, performance := 0,
            description := rec.description, style := rec.style, nsfw := rec.nsfw,
            type := rec.type, eta := EtaVal.infinity, queued := 0 } := by
      simp [mergeModel, hfind]
    rw [hmm]
    refine ⟨rfl, rfl, rfl, rfl, rfl, ?_, fun _ => ⟨rfl, rfl, rfl, rfl⟩⟩
    intro el2 hel2 hname2
    exact absurd hname2 (hex el2 hel2)

/-- The live model entry of the C6 witness environment. -/
def c6live : ActiveModel where
  name := "m1"
  count := 5
  performance := 2
  eta := 3
  queued := 4

/-- The static-database record of the C6 witness environment. -/
def c6rec : DbRecord where
  name := "m1"
  description := "d"
  style := "generalist"
  nsfw := false
  type := "ckpt"

/-- A concrete environment for C6: one live model and a one-record static
database of the same name. -/
def c6env : Env where
  net := fun _ => { status := 200, json := some { models := some [c6live] } }
  cancelAt := fun _ => false
  dbJSON := [c6rec]
  randomIndex := 0

/-- Witness for C6: the merged data of the concrete environment holds exactly
one record named "m1". -/
theorem c6_witness :
    ((stateOfUpdate (updateAvailableModels c6env testState)).modelsData.filter
        (fun m => m.name == c6rec.name)).length = 1 := by
  have h := c6_updateAvailableModels_merge c6env testState [c6live]
    rfl (by decide) (by decide)
  rcases hdone : updateAvailableModels c6env testState with ⟨s'⟩ | ⟨e, s'⟩ <;>
    rw [hdone] at h
  · exact (h c6rec (List.mem_singleton_self _)).1
  · exact h.elim
